import Mathlib

/-!
Verification of the qtranscode transcoding pipeline orchestrator
(src/qtranscode.py) against its natural-language specification.

The program is shallowly embedded: Python strings become `List Char` or
`String`, `fractions.Fraction` becomes `ℚ`, `datetime.timedelta` becomes an
`Int` count of microseconds, fallible code (assertions, raised exceptions)
returns `Except String _`.  External processes are modelled by the argument
vectors the program builds for them and, for the pipe transcoder and the
`main` driver, by the sequence of process launches and the observed exit
statuses.
-/

/-! ## Decimal digits, `str()`, `zfill`, `lower`/`upper` -/

/-- The decimal digit character for `n < 10` (Python's digit rendering). -/
def digitChar (n : Nat) : Char :=
  match n with
  | 0 => '0' | 1 => '1' | 2 => '2' | 3 => '3' | 4 => '4'
  | 5 => '5' | 6 => '6' | 7 => '7' | 8 => '8' | _ => '9'

/-- Is `c` an ASCII decimal digit (the `\d` class over ASCII input). -/
def isDig (c : Char) : Bool := 48 ≤ c.toNat && c.toNat ≤ 57

/-- Numeric value of a digit character. -/
def digVal (c : Char) : Nat := c.toNat - 48

/-- Decimal digit rendering with structural fuel (`n + 1` steps always
suffice, and structural recursion keeps the definition kernel-computable). -/
def natDigitsAux : Nat → Nat → List Char
  | 0, _ => []
  | fuel + 1, n =>
    if n < 10 then [digitChar n]
    else natDigitsAux fuel (n / 10) ++ [digitChar (n % 10)]

/-- Decimal digits of `n`, most significant first: Python's `str(n)` for a
nonnegative `int`. -/
def natDigits (n : Nat) : List Char := natDigitsAux (n + 1) n

/-- Value of a digit string, as read left to right. -/
def digitsVal (l : List Char) : Nat := l.foldl (fun a c => 10 * a + digVal c) 0

/-- Python's `str(x)` for an `int` of either sign. -/
def intStrL (x : Int) : List Char :=
  if x < 0 then '-' :: natDigits x.natAbs else natDigits x.natAbs

/-- Python's `str.zfill(w)`: left-pad with zeros to width `w`, keeping a
leading sign in front of the padding. -/
def zfillL (l : List Char) (w : Nat) : List Char :=
  if w ≤ l.length then l
  else
    match l with
    | [] => List.replicate w '0'
    | c :: r =>
      if c = '-' ∨ c = '+' then c :: (List.replicate (w - (r.length + 1)) '0' ++ r)
      else List.replicate (w - (r.length + 1)) '0' ++ (c :: r)

def natStrS (n : Nat) : String := String.mk (natDigits n)

def intStrS (x : Int) : String := String.mk (intStrL x)

/-- Python's `str(o)` where `o` is an optional int (`None` prints as "None");
used because the source passes possibly-`None` values straight to `str`. -/
def optNatStr (o : Option Nat) : String :=
  match o with
  | some n => natStrS n
  | none => "None"

/-- Python's `str.splitlines` restricted to the `\n`, `\r\n` and `\r`
terminators (the only ones produced by the external tools the program
consumes; the exotic unicode line boundaries are not modelled). -/
def pySplitlinesAux (acc : List Char) : List Char → List (List Char)
  | [] => if acc.isEmpty then [] else [acc.reverse]
  | '\n' :: r => acc.reverse :: pySplitlinesAux [] r
  | '\r' :: '\n' :: r => acc.reverse :: pySplitlinesAux [] r
  | '\r' :: r => acc.reverse :: pySplitlinesAux [] r
  | c :: r => pySplitlinesAux (c :: acc) r

def pySplitlines (s : String) : List (List Char) := pySplitlinesAux [] s.toList

/-- Index of the last occurrence of `c` in `l`, if any. -/
def lastIdxAux (c : Char) : List Char → Nat → Option Nat
  | [], _ => none
  | d :: r, i =>
    match lastIdxAux c r (i + 1) with
    | some j => some j
    | none => if d = c then some i else none

def lastIdx (c : Char) (l : List Char) : Option Nat := lastIdxAux c l 0

/-- Python's `os.path.splitext` (posix flavour): split off the extension at
the last dot of the basename, treating leading dots of the basename as part
of the name. -/
def pySplitext (p : List Char) : List Char × List Char :=
  let si : Int :=
    match lastIdx '/' p with
    | some s => (s : Int)
    | none => -1
  match lastIdx '.' p with
  | none => (p, [])
  | some d =>
    if (d : Int) > si then
      let seg := (p.take d).drop (si + 1).toNat
      if seg.any (fun c => c ≠ '.') then (p.take d, p.drop d) else (p, [])
    else (p, [])

def pyLowerL (l : List Char) : List Char := l.map Char.toLower

def pyUpperL (l : List Char) : List Char := l.map Char.toUpper

/-! ## Chapter slicer (`AVExtractor.extract_chapters`)

The three regular expressions of the source are fixed line shapes, embedded
as deterministic character-list parsers (`\d+` is a maximal digit run, which
is equivalent here because each run is followed by a non-digit literal). -/

/-- Literal `CHAPTER`. -/
def chapterLit : List Char := ['C', 'H', 'A', 'P', 'T', 'E', 'R']

/-- Literal `NAME=`. -/
def nameEqLit : List Char := ['N', 'A', 'M', 'E', '=']

/-- Literal `NAME=Chapter ` (auto-generated title prefix, regex 1). -/
def nameChapterLit : List Char :=
  ['N', 'A', 'M', 'E', '=', 'C', 'h', 'a', 'p', 't', 'e', 'r', ' ']

/-- Literal `Chapter `. -/
def chapterSpaceLit : List Char := ['C', 'h', 'a', 'p', 't', 'e', 'r', ' ']

/-- Consume an exact literal, returning the rest of the input. -/
def expectLit : List Char → List Char → Option (List Char)
  | [], s => some s
  | _ :: _, [] => none
  | c :: l, d :: s => if c = d then expectLit l s else none

/-- Maximal run of digits at the head of the input (regex `\d+`). -/
def takeDigits : List Char → List Char × List Char
  | [] => ([], [])
  | c :: r =>
    if isDig c then
      let p := takeDigits r
      (c :: p.1, p.2)
    else ([], c :: r)

/-- Consume one expected character. -/
def parseChar (c : Char) : List Char → Option (List Char)
  | d :: r => if d = c then some r else none
  | [] => none

/-- Exactly two digits (regex `(\d\d)`). -/
def parse2 : List Char → Option (Nat × List Char)
  | a :: b :: r =>
    if isDig a && isDig b then some (10 * digVal a + digVal b, r) else none
  | _ => none

/-- Exactly three digits (regex `(\d\d\d)`). -/
def parse3 : List Char → Option (Nat × List Char)
  | a :: b :: c :: r =>
    if isDig a && isDig b && isDig c then
      some (100 * digVal a + 10 * digVal b + digVal c, r)
    else none
  | _ => none

/-- Regex fragment `(\d\d):(\d\d):(\d\d)\.(\d\d\d)$`. -/
def parseClock (s : List Char) : Option (Nat × Nat × Nat × Nat) :=
  match parse2 s with
  | none => none
  | some (h, s1) =>
    match parseChar ':' s1 with
    | none => none
    | some s2 =>
      match parse2 s2 with
      | none => none
      | some (m, s3) =>
        match parseChar ':' s3 with
        | none => none
        | some s4 =>
          match parse2 s4 with
          | none => none
          | some (sec, s5) =>
            match parseChar '.' s5 with
            | none => none
            | some s6 =>
              match parse3 s6 with
              | some (ms, []) => some (h, m, sec, ms)
              | _ => none

/-- `CHAPTERS_TIME_RE`: `^CHAPTER(\d+)=(\d\d):(\d\d):(\d\d)\.(\d\d\d)$`. -/
def parseTimeLine (l : List Char) : Option (Nat × Nat × Nat × Nat × Nat) :=
  match expectLit chapterLit l with
  | none => none
  | some s =>
    let p := takeDigits s
    if p.1 = [] then none
    else
      match parseChar '=' p.2 with
      | none => none
      | some s2 =>
        match parseClock s2 with
        | none => none
        | some (h, m, sec, ms) => some (digitsVal p.1, h, m, sec, ms)

/-- `CHAPTERS_TITLE_1_RE`: `^CHAPTER(\d+)NAME=Chapter (\d+)$`. -/
def parseTitle1 (l : List Char) : Option (Nat × Nat) :=
  match expectLit chapterLit l with
  | none => none
  | some s =>
    let p := takeDigits s
    if p.1 = [] then none
    else
      match expectLit nameChapterLit p.2 with
      | none => none
      | some s2 =>
        let q := takeDigits s2
        if q.1 = [] ∨ q.2 ≠ [] then none else some (digitsVal p.1, digitsVal q.1)

/-- `CHAPTERS_TITLE_2_RE`: `^CHAPTER(\d+)NAME=(.*)$`. -/
def parseTitle2 (l : List Char) : Option (Nat × List Char) :=
  match expectLit chapterLit l with
  | none => none
  | some s =>
    let p := takeDigits s
    if p.1 = [] then none
    else
      match expectLit nameEqLit p.2 with
      | none => none
      | some s2 => some (digitsVal p.1, s2)

/-- Total microseconds of `datetime.timedelta(hours, minutes, seconds,
milliseconds)` as built from the four regex groups. -/
def usOf (h m s ms : Nat) : Nat := (h * 3600 + m * 60 + s) * 1000000 + ms * 1000

/-- `timedelta.seconds` of a (possibly negative) microsecond total: the
seconds component after normalising to `days/seconds/microseconds` with
`0 ≤ seconds < 86400`. -/
def tdSecs (t : Int) : Nat := ((t.ediv 1000000).emod 86400).toNat

/-- `timedelta.microseconds` of a microsecond total. -/
def tdMicros (t : Int) : Nat := (t.emod 1000000).toNat

/-- Search pattern of line 145: `^CHAPTER` + `str(chap_start).zfill(2)` +
`=(\d\d):(\d\d):(\d\d)\.(\d\d\d)$`; returns the matched timestamp in
microseconds. -/
def parseStartLine (start : Nat) (l : List Char) : Option Nat :=
  match expectLit (chapterLit ++ zfillL (natDigits start) 2) l with
  | none => none
  | some s =>
    match parseChar '=' s with
    | none => none
    | some s2 =>
      match parseClock s2 with
      | none => none
      | some (h, m, sec, ms) => some (usOf h m sec ms)

/-- `re.search(..., re.M)` over the chapter text: first line matching the
start-chapter pattern. -/
def findStart (start : Nat) : List (List Char) → Option Nat
  | [] => none
  | l :: r =>
    match parseStartLine start l with
    | some t => some t
    | none => findStart start r

/-- The range test `(chap_start is None or idx >= chap_start) and
(chap_end is None or idx <= chap_end)`. -/
def inRangeB (cs ce : Option Nat) (i : Nat) : Bool :=
  (match cs with
   | none => true
   | some s => decide (s ≤ i)) &&
  (match ce with
   | none => true
   | some e => decide (i ≤ e))

/-- Emitted time record (source line 159): index shifted by the index
offset, timestamp shifted by the time offset and re-rendered through the
`timedelta` components. -/
def emitTimeL (i : Int) (t : Int) : List Char :=
  chapterLit ++ zfillL (intStrL i) 2 ++ '=' ::
    (zfillL (natDigits (tdSecs t / 3600)) 2 ++ ':' ::
      (zfillL (natDigits (tdSecs t / 60 % 60)) 2 ++ ':' ::
        (zfillL (natDigits (tdSecs t % 60)) 2 ++ '.' ::
          (zfillL (natDigits (tdMicros t / 1000)) 3 ++ ['\n']))))

/-- Emitted auto-generated title record (source line 163). -/
def emitT1L (i n : Int) : List Char :=
  chapterLit ++ zfillL (intStrL i) 2 ++ nameChapterLit ++
    (zfillL (intStrL n) 2 ++ ['\n'])

/-- Emitted free-form title record (source line 167). -/
def emitT2L (i : Int) (t : List Char) : List Char :=
  chapterLit ++ zfillL (intStrL i) 2 ++ nameEqLit ++ (t ++ ['\n'])

/-- Title branches of the per-line dispatch (tried when the time regex does
not match or its index is out of range). -/
def title2Step (cs ce : Option Nat) (offI : Int) (l : List Char) : List Char :=
  match parseTitle2 l with
  | some (i, t) => if inRangeB cs ce i then emitT2L ((i : Int) - offI) t else []
  | none => []

def titleSteps (cs ce : Option Nat) (offI : Int) (l : List Char) : List Char :=
  match parseTitle1 l with
  | some (i, n) =>
    if inRangeB cs ce i then emitT1L ((i : Int) - offI) ((n : Int) - offI)
    else title2Step cs ce offI l
  | none => title2Step cs ce offI l

/-- One iteration of the `for line in chapters.splitlines()` loop. -/
def processLine (cs ce : Option Nat) (offI offT : Int) (l : List Char) :
    List Char :=
  match parseTimeLine l with
  | some (i, h, m, s, ms) =>
    if inRangeB cs ce i then
      emitTimeL ((i : Int) - offI) ((usOf h m s ms : Int) - offT)
    else titleSteps cs ce offI l
  | none => titleSteps cs ce offI l

/-- The accumulation `new_chapters += ...` over all lines. -/
def extractBody (cs ce : Option Nat) (offI offT : Int)
    (lines : List (List Char)) : List Char :=
  lines.foldl (fun acc l => acc ++ processLine cs ce offI offT l) []

/-- `AVExtractor.extract_chapters` on already-extracted chapter text:
computes the index and time offsets, then rewrites each record, raising if
a requested start chapter has no matching timestamp line. -/
def extract_chapters (cs ce : Option Nat) (chapters : String) :
    Except String String :=
  let lines := pySplitlines chapters
  match cs with
  | some s =>
    match findStart s lines with
    | some t =>
      Except.ok (String.mk (extractBody cs ce ((s : Int) - 1) (t : Int) lines))
    | none => Except.error ("Start chapter could not be found!")
  | none => Except.ok (String.mk (extractBody cs ce 0 0 lines))

/-! ## Specification-side view of chapter texts

A well-formed chapter text is rendered from a list of records; the expected
output of slicing is phrased, following the spec, as "keep the records whose
index lies in the range, subtract the index offset from every index-bearing
field and the time offset from every timestamp". -/

inductive ChapRec
  | time (idx h m s ms : Nat)
  | autoTitle (idx n : Nat)
  | freeTitle (idx : Nat) (t : List Char)

def ChapRec.idxOf : ChapRec → Nat
  | .time i _ _ _ _ => i
  | .autoTitle i _ => i
  | .freeTitle i _ => i

/-- The `HH:MM:SS.mmm` clock text of a record's fields. -/
def clockL (h m s ms : Nat) : List Char :=
  zfillL (natDigits h) 2 ++ ':' ::
    (zfillL (natDigits m) 2 ++ ':' ::
      (zfillL (natDigits s) 2 ++ '.' :: zfillL (natDigits ms) 3))

/-- One line of a well-formed chapter text (without its newline). -/
def renderLineL : ChapRec → List Char
  | .time i h m s ms =>
    chapterLit ++ zfillL (natDigits i) 2 ++ '=' :: clockL h m s ms
  | .autoTitle i n =>
    chapterLit ++ zfillL (natDigits i) 2 ++ nameChapterLit ++
      zfillL (natDigits n) 2
  | .freeTitle i t => chapterLit ++ zfillL (natDigits i) 2 ++ nameEqLit ++ t

/-- The full chapter text: each record on its own newline-terminated line. -/
def renderRecsL (rs : List ChapRec) : List Char :=
  (rs.map (fun r => renderLineL r ++ ['\n'])).flatten

def renderRecs (rs : List ChapRec) : String := String.mk (renderRecsL rs)

/-- Does a free-form title have the exact shape `Chapter <digits>` that the
auto-generated-title regex would capture instead? -/
def isAutoLabelB (t : List Char) : Bool :=
  match expectLit chapterSpaceLit t with
  | some r =>
    let q := takeDigits r
    decide (q.1 ≠ []) && decide (q.2 = [])
  | none => false

/-- Well-formedness of a record for the fixed text format: clock fields fit
their two/three digit groups, and a free title is newline-free and is not
captured by the auto-generated-title regex. -/
def recWFB : ChapRec → Bool
  | .time _ h m s ms =>
    decide (h < 100) && decide (m < 100) && decide (s < 100) &&
      decide (ms < 1000)
  | .autoTitle _ _ => true
  | .freeTitle _ t =>
    t.all (fun c => c ≠ '\n' && c ≠ '\r') && !(isAutoLabelB t)

/-- Normalised clock fields (`HH:MM:SS.mmm` denotes a time of day), needed
for the identity round-trip. -/
def recNormB : ChapRec → Bool
  | .time _ h m s ms =>
    decide (h < 24) && decide (m < 60) && decide (s < 60) && decide (ms < 1000)
  | _ => true

/-- The spec's time offset: timestamp of the first record carrying the start
index (zero when no start is given). -/
def specStartTime (s : Nat) : List ChapRec → Option Nat
  | [] => none
  | .time i h m sec ms :: r =>
    if i = s then some (usOf h m sec ms) else specStartTime s r
  | _ :: r => specStartTime s r

/-- The spec's index offset `(startIndex - 1)` (0 when unset). -/
def specOffI (cs : Option Nat) : Int :=
  match cs with
  | some s => (s : Int) - 1
  | none => 0

/-- Canonical rendering of a rebased timestamp `u` (in microseconds,
`u < 24h`) straight into `HH:MM:SS.mmm`. -/
def specClockOfUs (u : Nat) : List Char :=
  zfillL (natDigits (u / 3600000000)) 2 ++ ':' ::
    (zfillL (natDigits (u % 3600000000 / 60000000)) 2 ++ ':' ::
      (zfillL (natDigits (u % 60000000 / 1000000)) 2 ++ '.' ::
        zfillL (natDigits (u % 1000000 / 1000)) 3))

/-- Expected output for one record: drop it if its index is outside the
range, otherwise shift every index-bearing field by the index offset and the
timestamp by the time offset. -/
def specEmit (cs ce : Option Nat) (offI : Int) (offT : Nat) :
    ChapRec → List Char
  | .time i h m s ms =>
    if inRangeB cs ce i then
      chapterLit ++ zfillL (intStrL ((i : Int) - offI)) 2 ++ '=' ::
        (specClockOfUs (usOf h m s ms - offT) ++ ['\n'])
    else []
  | .autoTitle i n =>
    if inRangeB cs ce i then emitT1L ((i : Int) - offI) ((n : Int) - offI)
    else []
  | .freeTitle i t =>
    if inRangeB cs ce i then emitT2L ((i : Int) - offI) t else []

def specSliceText (cs ce : Option Nat) (offI : Int) (offT : Nat)
    (rs : List ChapRec) : String :=
  String.mk (rs.map (specEmit cs ce offI offT)).flatten

/-- Time offsets are only subtracted from records that are kept; for those
the rebased timestamp must be a nonnegative duration below one day (the
source renders through `timedelta.seconds`, which wraps at 24 h). -/
def timeOKB (cs ce : Option Nat) (offT : Nat) : ChapRec → Bool
  | .time i h m s ms =>
    !(inRangeB cs ce i) ||
      (decide (offT ≤ usOf h m s ms) &&
        decide (usOf h m s ms - offT < 86400000000))
  | _ => true

/-! ## Frame-rate normalisation (`AVExtractor.__init__`, lines 78-82)

The probed value and the tolerance test are modelled in exact rational
arithmetic (the decimal fps text denotes a rational; the double rounding of
the source is far below the 1e-5 tolerance at every probed value). -/

def normalize_framerate (v : ℚ) : ℚ :=
  if |((⌈v⌉ : ℚ)) / (1001 / 1000) - v| / v < 1 / 100000 then
    ((⌈v⌉ : ℚ) * 1000) / 1001
  else v

/-- Spec-side: the tolerance condition as the spec words it. -/
def ntscCond (v : ℚ) : Prop := |((⌈v⌉ : ℚ)) / (1001 / 1000) - v| / v < 1 / 100000

instance (v : ℚ) : Decidable (ntscCond v) := by
  unfold ntscCond
  infer_instance

/-- Spec-side: the snapped NTSC rational `ceil(v)*1000/1001`. -/
def ntscSnap (v : ℚ) : ℚ := ((⌈v⌉ : ℚ) * 1000) / 1001

/-! ## Video encode-spec builders (lines 314-419)

Each builder returns the external tool's argument vector; Python `assert`
failures become `Except.error`.  `os.devnull` is `/dev/null`,
`multiprocessing.cpu_count()` is passed in as `ncpu`, and a `None` handed to
`str()` renders as `"None"` exactly as in the source. -/

/-- Python's `round()` (banker's rounding, half to even). -/
def pyRound (q : ℚ) : Int :=
  if q - (⌊q⌋ : ℚ) < 1 / 2 then ⌊q⌋
  else if (1 : ℚ) / 2 < q - (⌊q⌋ : ℚ) then ⌊q⌋ + 1
  else if ⌊q⌋ % 2 = 0 then ⌊q⌋ else ⌊q⌋ + 1

def get_encode_av1_command (out_path : String) (dims : Nat × Nat) (fr : ℚ)
    (quality : Option ℚ) (bitrate : Option Nat) (speed : Option Nat)
    (cur_pass : Option Nat) (stat_path : Option String) :
    Except String (List String) :=
  if cur_pass.isSome && stat_path.isSome then Except.error ("AssertionError")
  else if !(cur_pass = none || cur_pass = some 1 || cur_pass = some 2) then
    Except.error ("AssertionError")
  else
    let qual_args : List String :=
      match quality with
      | some q => ["--rc", "0", "--qp", intStrS (pyRound (63 - q * (63 / 10)))]
      | none =>
        match bitrate with
        | some b => ["--rc", "1", "--tbr", natStrS b]
        | none => []
    let pass_args : List String :=
      if cur_pass = some 1 then
        ["-b", "/dev/null", "--irefresh-type", "2", "--pass", "1",
         "--stat-file", stat_path.getD ("")]
      else if cur_pass = some 2 then
        ["-b", out_path, "--irefresh-type", "2", "--pass", "2",
         "--stat-file", stat_path.getD ("")]
      else ["-b", out_path]
    Except.ok
      (["SvtAv1EncApp", "-i", "stdin", "-w", natStrS dims.1, "-h",
        natStrS dims.2, "--fps-num", intStrS fr.num, "--fps-denom",
        natStrS fr.den, "--preset", optNatStr speed] ++ qual_args ++ pass_args)

def get_encode_h264_command (out_path : String) (dims : Nat × Nat) (fr : ℚ)
    (sar : ℚ) (quality : Option ℚ) (bitrate : Option Nat) (speed : Option Nat)
    (cur_pass : Option Nat) (stat_path : Option String) :
    Except String (List String) :=
  if cur_pass.isSome && stat_path.isSome then Except.error ("AssertionError")
  else if !(cur_pass = none || cur_pass = some 1 || cur_pass = some 2) then
    Except.error ("AssertionError")
  else
    let qual_args : List String :=
      match quality with
      | some q => ["--crf", intStrS (pyRound (51 - q * (51 / 10)))]
      | none =>
        match bitrate with
        | some b => ["--bitrate", natStrS b]
        | none => []
    let pass_args : List String :=
      if cur_pass = some 1 then
        ["--pass", "1", "--stats", stat_path.getD (""), "--output", "/dev/null"]
      else if cur_pass = some 2 then
        ["--pass", "2", "--stats", stat_path.getD (""), "--output", out_path]
      else ["--output", out_path]
    Except.ok
      (["x264", "--profile", "high", "--level", "4.2", "--bluray-compat",
        "--muxer", "raw", "--demuxer", "raw", "--input-csp", "i420",
        "--input-res", natStrS dims.1 ++ "x" ++ natStrS dims.2, "--sar",
        intStrS sar.num ++ ":" ++ natStrS sar.den, "--fps",
        intStrS fr.num ++ "/" ++ natStrS fr.den, "-"] ++ qual_args ++
        pass_args)

def get_encode_vp9_command (out_path : String) (dims : Nat × Nat) (fr : ℚ)
    (quality : Option ℚ) (bitrate : Option Nat) (speed : Option Nat)
    (cur_pass : Option Nat) (stat_path : Option String) (ncpu : Nat) :
    Except String (List String) :=
  if cur_pass.isSome && stat_path.isSome then Except.error ("AssertionError")
  else if !(cur_pass = none || cur_pass = some 1 || cur_pass = some 2) then
    Except.error ("AssertionError")
  else
    let qual_args : List String :=
      if quality.isSome && bitrate.isSome then ["--end-usage=cq"]
      else if quality.isSome then ["--end-usage=q"]
      else if bitrate.isSome then ["--end-usage=vbr"]
      else []
    -- lines 365-368 of the source REASSIGN qual_args (no +=):
    let qual_args :=
      match quality with
      | some q =>
        ["--cq-level=" ++ intStrS (pyRound (63 - q * (63 / 10)))]
      | none => qual_args
    let qual_args :=
      match bitrate with
      | some b => ["--target-bitrate=" ++ natStrS b]
      | none => qual_args
    let speed_args : List String :=
      if speed = some 0 then ["--best"]
      else if speed = some 1 then ["--good"]
      else if speed = some 2 then ["--rt"]
      else []
    let pass_args : List String :=
      if cur_pass = some 1 then
        ["--output=/dev/null", "--passes=2", "--pass=1",
         "--fpf=" ++ stat_path.getD (""), "--auto-alt-ref=1"]
      else if cur_pass = some 2 then
        ["--output=" ++ out_path, "--passes=2", "--pass=2",
         "--fpf=" ++ stat_path.getD (""), "--auto-alt-ref=1"]
      else ["--output=" ++ out_path, "--passes=1"]
    Except.ok
      (["vpxenc", "--codec=vp9", "--threads=" ++ natStrS ncpu] ++ pass_args ++
        ["--ivf", "--width=" ++ natStrS dims.1, "--height=" ++ natStrS dims.2,
         "--fps=" ++ intStrS fr.num ++ "/" ++ natStrS fr.den] ++ qual_args ++
        speed_args ++ ["-"])

def get_encode_vp8_command (out_path : String) (dims : Nat × Nat) (fr : ℚ)
    (quality : Option ℚ) (bitrate : Option Nat) (speed : Option Nat)
    (cur_pass : Option Nat) (stat_path : Option String) (ncpu : Nat) :
    Except String (List String) :=
  if cur_pass.isSome && stat_path.isSome then Except.error ("AssertionError")
  else if !(cur_pass = none || cur_pass = some 1 || cur_pass = some 2) then
    Except.error ("AssertionError")
  else
    let qual_args : List String :=
      if quality.isSome && bitrate.isSome then ["--end-usage=cq"]
      else if quality.isSome then ["--end-usage=q"]
      else if bitrate.isSome then ["--end-usage=vbr"]
      else []
    -- lines 400-403 of the source APPEND with +=:
    let qual_args :=
      match quality with
      | some q =>
        qual_args ++ ["--cq-level=" ++ intStrS (pyRound (63 - q * (63 / 10)))]
      | none => qual_args
    let qual_args :=
      match bitrate with
      | some b => qual_args ++ ["--target-bitrate=" ++ natStrS b]
      | none => qual_args
    let speed_args : List String :=
      if speed = some 0 then ["--best"]
      else if speed = some 1 then ["--good"]
      else if speed = some 2 then ["--rt"]
      else []
    let pass_args : List String :=
      if cur_pass = some 1 then
        ["--output=/dev/null", "--passes=2", "--pass=1",
         "--fpf=" ++ stat_path.getD (""), "--auto-alt-ref=1"]
      else if cur_pass = some 2 then
        ["--output=" ++ out_path, "--passes=2", "--pass=2",
         "--fpf=" ++ stat_path.getD (""), "--auto-alt-ref=1"]
      else ["--output=" ++ out_path, "--passes=1"]
    Except.ok
      (["vpxenc", "--codec=vp8", "--threads=" ++ natStrS ncpu] ++ pass_args ++
        ["--ivf", "--width=" ++ natStrS dims.1, "--height=" ++ natStrS dims.2,
         "--fps=" ++ intStrS fr.num ++ "/" ++ natStrS fr.den] ++ qual_args ++
        speed_args ++ ["-"])

/-- Helper: the argument vector of a successful builder result. -/
def cmdOf (e : Except String (List String)) : List String :=
  match e with
  | .ok l => l
  | .error _ => []

/-- Helper: did the builder succeed? -/
def exceptOk (e : Except String (List String)) : Bool :=
  match e with
  | .ok _ => true
  | .error _ => false

/-- Character-list prefix test. -/
def isPreL : List Char → List Char → Bool
  | [], _ => true
  | _ :: _, [] => false
  | c :: l, d :: s => c = d && isPreL l s

/-- Does some argument start with the given flag text? -/
def hasFlagPre (cmd : List String) (p : String) : Bool :=
  cmd.any (fun a => isPreL p.toList a.toList)

/-! ## Pipe transcoder (`transcode`, lines 481-488)

The two external processes are abstracted by their exit statuses; the model
records which processes had their exit observed (`wait()` called) and the
outcome.  The source waits on the decoder, raises on a non-zero status, and
only then waits on the encoder. -/

structure TranscodeRun where
  result : Except String Unit
  decWaited : Bool
  encWaited : Bool

def transcode (decStatus encStatus : Int) : TranscodeRun :=
  if decStatus ≠ 0 then
    ⟨Except.error ("Error occurred in decoding process!"), true, false⟩
  else if encStatus ≠ 0 then
    ⟨Except.error ("Error occurred in encoding process!"), true, true⟩
  else ⟨Except.ok (), true, true⟩

/-! ## Decode command builder (`AVExtractor.get_decode_video_command`) -/

/-- `':'.join(map(str, crop))` for the 4-tuple `(W, H, X, Y)`. -/
def renderQuad (c : Int × Int × Int × Int) : String :=
  intStrS c.1 ++ ":" ++ intStrS c.2.1 ++ ":" ++ intStrS c.2.2.1 ++ ":" ++
    intStrS c.2.2.2

/-- `':'.join(map(str, scale))` for the pair `(W, H)`. -/
def renderPair (p : Int × Int) : String := intStrS p.1 ++ ":" ++ intStrS p.2

/-- `'/'.join(map(str, force_rate))`. -/
def renderRate (r : Int × Int) : String := intStrS r.1 ++ "/" ++ intStrS r.2

/-- The `-vf` filter chain built by lines 209-230. -/
def decodeFilters (denoise pp : Bool) (scale : Option (Int × Int))
    (crop : Option (Int × Int × Int × Int)) (deint ivtc : Bool) : String :=
  let filters := "format=i420"
  let filters :=
    if ivtc then
      match crop with
      | none => filters ++ ",filmdint=fast=0,"
      | some c => filters ++ ",filmdint=fast=0/crop=" ++ renderQuad c
    else filters
  let filters := if deint then filters ++ ",yadif=1" else filters
  let filters :=
    match crop with
    | some c => if ivtc then filters else filters ++ ",crop=" ++ renderQuad c
    | none => filters
  let filters :=
    match scale with
    | some sc => filters ++ ",scale=" ++ renderPair sc
    | none => filters
  let filters := if pp then filters ++ ",pp=ha/va/dr" else filters
  let filters := if denoise then filters ++ ",hqdn3d" else filters
  filters ++ ",harddup"

/-- The `-ofps` arguments of lines 210-219. -/
def decodeOfps (ivtc : Bool) (force_rate : Option (Int × Int)) : List String :=
  if ivtc then ["-ofps", "24000/1001"]
  else
    match force_rate with
    | some r => ["-ofps", renderRate r]
    | none => []

/-- The full decode command of line 237. -/
def get_decode_video_command (denoise pp : Bool) (scale : Option (Int × Int))
    (crop : Option (Int × Int × Int × Int)) (deint ivtc : Bool)
    (force_rate : Option (Int × Int)) (hardsub : Bool)
    (input_args : List String) : List String :=
  ["mencoder", "-quiet", "-really-quiet", "-sws", "9", "-vf",
    decodeFilters denoise pp scale crop deint ivtc] ++
    decodeOfps ivtc force_rate ++
    ["-ovc", "raw", "-of", "rawvideo", "-o", "-"] ++ input_args ++
    ["-nosound"] ++ (if hardsub then ["-ass"] else ["-nosub"])

/-! Spec-side view of the filter chain: one part per stage, concatenated in
the fixed order format, telecine, deinterlace, crop, scale, post-process,
denoise, duplication; crop folds into the telecine filter when both are
requested, and the duplication stage is always last. -/

def specStageIvtc (ivtc : Bool) (crop : Option (Int × Int × Int × Int)) :
    String :=
  if ivtc then
    match crop with
    | none => ",filmdint=fast=0,"
    | some c => ",filmdint=fast=0/crop=" ++ renderQuad c
  else ""

def specStageDeint (deint : Bool) : String := if deint then ",yadif=1" else ""

def specStageCrop (ivtc : Bool) (crop : Option (Int × Int × Int × Int)) :
    String :=
  if ivtc then ""
  else
    match crop with
    | some c => ",crop=" ++ renderQuad c
    | none => ""

def specStageScale (scale : Option (Int × Int)) : String :=
  match scale with
  | some sc => ",scale=" ++ renderPair sc
  | none => ""

def specStagePp (pp : Bool) : String := if pp then ",pp=ha/va/dr" else ""

def specStageDenoise (denoise : Bool) : String :=
  if denoise then ",hqdn3d" else ""

/-- The claim's chain: fixed stage order with duplication always last. -/
def specFilterChain (denoise pp : Bool) (scale : Option (Int × Int))
    (crop : Option (Int × Int × Int × Int)) (deint ivtc : Bool) : String :=
  "format=i420" ++ specStageIvtc ivtc crop ++ specStageDeint deint ++
    specStageCrop ivtc crop ++ specStageScale scale ++ specStagePp pp ++
    specStageDenoise denoise ++ ",harddup"

/-- The claim's rate rule: inverse telecine forces 24000/1001 and overrides
an explicitly forced rate; otherwise a forced rate is carried unchanged. -/
def specOfps (ivtc : Bool) (force_rate : Option (Int × Int)) : List String :=
  if ivtc then ["-ofps", "24000/1001"]
  else
    match force_rate with
    | some r => ["-ofps", renderRate r]
    | none => []

/-! ## Output container determination (`main`, lines 574-590) -/

def determineContainer (container : Option String) (output : String) :
    Except String (String × String) :=
  let pr := pySplitext output.toList
  if container = some (".mkv") then
    Except.ok (String.mk (pr.1 ++ (".mkv").toList), "mkv")
  else if container = some (".webm") then
    Except.ok (String.mk (pr.1 ++ (".webm").toList), "webm")
  else if container = some (".mp4") then
    Except.ok (String.mk (pr.1 ++ (".mp4").toList), "mp4")
  else
    if (String.mk (pyLowerL pr.2)) ∈ ([".mkv", ".webm", ".mp4"] : List String)
    then Except.ok (output, String.mk (pyLowerL (pr.2.drop 1)))
    else Except.error ("Output container type indeterminable!")

/-- The lower-cased extension of the output path, for stating the rejection
half of the container claim. -/
def outSuffixLower (output : String) : String :=
  String.mk (pyLowerL (pySplitext output.toList).2)

/-! ## Final frame rate (`main`, lines 731-739) -/

def mainFinalRate (ivtc : Bool) (rate : Option (Int × Int)) (probed : ℚ)
    (deint : Bool) : ℚ :=
  let final_rate : ℚ :=
    if ivtc then (24000 : ℚ) / 1001
    else
      match rate with
      | some r => (r.1 : ℚ) / (r.2 : ℚ)
      | none => probed
  if deint then final_rate * 2 else final_rate

/-- Spec-side base rate: 24000/1001 under inverse telecine, else the forced
rate, else the probed rate. -/
def specBaseRate (ivtc : Bool) (rate : Option (Int × Int)) (probed : ℚ) : ℚ :=
  if ivtc then (24000 : ℚ) / 1001
  else
    match rate with
    | some r => (r.1 : ℚ) / (r.2 : ℚ)
    | none => probed

/-! ## The `main` driver up to the audio stage (lines 564-709)

Modelled as the ordered list of external process launches together with the
outcome at the audio stage.  Probe-derived facts (the fields the
`AVExtractor` constructor scrapes from tool output) are inputs.  Command
construction details of the audio encoders are not re-modelled here; only
which processes get launched, in source order, and where the run stops. -/

structure CmdLine where
  input : String
  output : String
  container : Option String
  dvd : Bool
  bluray : Bool
  size : Option (Int × Int)
  rate : Option (Int × Int)
  audio_codec : String
  start_chapter : Option Nat
  end_chapter : Option Nat
  no_chapters : Bool
  no_attachments : Bool
  no_subtitles : Bool
  hardsub : Bool

structure ProbeFacts where
  dvd_has_subtitles : Bool
  mkv_has_chapters : Bool
  mkv_attachment_cnt : Nat
  mkv_has_subtitles : Bool
  chapter_text : String

/-- Python truthiness of the optional chapter bounds (line 703 tests
`extractor.chap_start or extractor.chap_end`, not `is not None`). -/
def truthyOpt (o : Option Nat) : Bool :=
  match o with
  | some v => v ≠ 0
  | none => false

/-- `main` from the sanity checks to the end of the audio stage: the list of
external processes launched so far, and either `.ok code` (a `return code`,
with 0 meaning the run would continue into the video stage) or `.error msg`
(an uncaught exception). -/
def mainAudioTrace (cl : CmdLine) (pf : ProbeFacts) :
    List String × Except String Nat :=
  if cl.bluray && cl.size.isNone then ([], Except.ok 1)
  else if cl.bluray && cl.rate.isNone then ([], Except.ok 1)
  else
    match determineContainer cl.container cl.output with
    | .error _ => ([], Except.ok 1)
    | .ok (_out, out_container) =>
      let is_matroska :=
        pyUpperL (pySplitext cl.input.toList).2 = ('.' :: ['M', 'K', 'V'])
      let evs := ["mplayer probe"] ++
        (if !cl.dvd && is_matroska then ["mkvmerge identify"] else [])
      let has_chapters :=
        if cl.dvd then true
        else if is_matroska then pf.mkv_has_chapters else false
      let attachment_cnt :=
        if cl.dvd then 0
        else if is_matroska then pf.mkv_attachment_cnt else 0
      let has_subtitles :=
        if cl.dvd then pf.dvd_has_subtitles
        else if is_matroska then pf.mkv_has_subtitles else false
      let doChap := has_chapters && !cl.no_chapters &&
        (out_container = "mkv" || out_container = "mp4")
      let evs := evs ++
        (if doChap then
          [if is_matroska then "mkvextract chapters" else "dvdxchap"]
        else [])
      match
        (if doChap then
          extract_chapters cl.start_chapter cl.end_chapter pf.chapter_text
        else Except.ok "") with
      | .error m => (evs, Except.error m)
      | .ok _ =>
        let evs := evs ++
          (if attachment_cnt > 0 && !cl.no_attachments &&
              out_container = "mkv" then
            ["mkvextract attachments"]
          else [])
        let evs := evs ++
          (if has_subtitles && !cl.no_subtitles && !cl.hardsub &&
              out_container = "mkv" then
            [if is_matroska then "mkvextract tracks" else "mencoder vobsub"]
          else [])
        -- audio-codec dispatch, lines 670-696: `copy` falls into `assert 0`
        if cl.audio_codec = "aac" || cl.audio_codec = "flac" ||
            cl.audio_codec = "opus" || cl.audio_codec = "vorbis" ||
            cl.audio_codec = "mp3" then
          -- lines 698-709 (for these codecs `!= 'copy'` always holds)
          if cl.audio_codec ≠ "copy" then
            (evs ++ ["audio decode", "audio encode"], Except.ok 0)
          else if truthyOpt cl.start_chapter || truthyOpt cl.end_chapter then
            (evs, Except.ok 1)
          else (evs ++ ["audio extract"], Except.ok 0)
        else (evs, Except.error ("AssertionError"))

/-- The head of `r`, when present, is not a digit. -/
def headNotDig (r : List Char) : Prop :=
  ∀ c, r.head? = some c → isDig c = false

/-! ## Helper lemmas on strings -/

theorem string_append_empty (s : String) : s ++ "" = s := by
  cases s with
  | mk l => show String.mk (l ++ []) = String.mk l; rw [List.append_nil]

theorem string_empty_append (s : String) : "" ++ s = s := rfl

theorem string_append_assoc (a b c : String) : a ++ b ++ c = a ++ (b ++ c) := by
  cases a with
  | mk la =>
    cases b with
    | mk lb =>
      cases c with
      | mk lc =>
        show String.mk (la ++ lb ++ lc) = String.mk (la ++ (lb ++ lc))
        rw [List.append_assoc]

/-! ## Claims C1, C2, C4, C5, C7, C9, C10 -/

/-- Claim C1: the spec says calling a video codec builder with a pass number
together with a stats path is the accepted two-pass convention and does not
fail.  The code contradicts its own caller: every builder begins with
`assert not (cur_pass is not None and stat_path is not None)`, so the exact
calls `main` makes for two-pass runs (pass 1 or 2 plus a stats path) raise
`AssertionError` in all four builders. -/
theorem c1_two_pass_call_asserts :
    get_encode_av1_command "video.ivf" (640, 480) ((24000 : ℚ) / 1001) none
        none (some 3) (some 1) (some "av1_stats") =
      Except.error ("AssertionError") ∧
    get_encode_av1_command "video.ivf" (640, 480) ((24000 : ℚ) / 1001) none
        none (some 3) (some 2) (some "av1_stats") =
      Except.error ("AssertionError") ∧
    get_encode_h264_command "video.264" (640, 480) ((24000 : ℚ) / 1001) 1 none
        none (some 3) (some 1) (some "x264_stats") =
      Except.error ("AssertionError") ∧
    get_encode_vp9_command "video.ivf" (640, 480) ((24000 : ℚ) / 1001) none
        none (some 3) (some 1) (some "vp9_stats") 4 =
      Except.error ("AssertionError") ∧
    get_encode_vp8_command "video.ivf" (640, 480) ((24000 : ℚ) / 1001) none
        none (some 3) (some 1) (some "vp8_stats") 4 =
      Except.error ("AssertionError") := by
  refine ⟨?_, ?_, ?_, ?_, ?_⟩ <;> rfl

/-- Claim C2, counterexample: when the decode process exits non-zero (status
1 here), `transcode` raises without ever waiting on the encode process, so
it is false that both exit statuses are observed when one is already known
to be non-zero. -/
theorem c2_counterexample :
    (transcode 1 0).encWaited = false ∧
    (transcode 1 0).result =
      Except.error ("Error occurred in decoding process!") := by
  exact ⟨rfl, rfl⟩

/-- Claim C2 as amended: `transcode` waits on the decode status first and
raises a decode-stage error without observing the encode status when it is
non-zero; otherwise it also waits on the encode status.  It returns success
iff both observed statuses are zero, and tags the error with the failing
stage. -/
theorem c2_transcode_stage_errors (d e : Int) :
    ((transcode d e).result = Except.ok () ↔ (d = 0 ∧ e = 0)) ∧
    (transcode d e).decWaited = true ∧
    ((transcode d e).encWaited = true ↔ d = 0) ∧
    ((transcode d e).result =
        Except.error ("Error occurred in decoding process!") ↔ d ≠ 0) ∧
    ((transcode d e).result =
        Except.error ("Error occurred in encoding process!") ↔
      (d = 0 ∧ e ≠ 0)) := by
  by_cases hd : d = 0 <;> by_cases he : e = 0 <;>
    simp [transcode, hd, he]

/-- Helper: the ceiling of the probed value 23.976 is 24. -/
theorem ceil_23976 : (⌈(23976 : ℚ) / 1000⌉ : ℤ) = 24 := by
  rw [Int.ceil_eq_iff]
  norm_num

/-- Helper: the ceiling of the probed value 25 is 25. -/
theorem ceil_25 : (⌈(25 : ℚ)⌉ : ℤ) = 25 := by
  norm_num

/-- Helper: 23.976 is within the NTSC snapping tolerance of 24/1.001. -/
theorem cond_23976 :
    |((24 : ℤ) : ℚ) / (1001 / 1000) - 23976 / 1000| / (23976 / 1000) <
      1 / 100000 := by
  have habs :
      |((24 : ℤ) : ℚ) / (1001 / 1000) - 23976 / 1000| = 3 / 125125 := by
    rw [abs_of_pos] <;> norm_num
  rw [habs]
  norm_num

/-- Helper: 25 is outside the NTSC snapping tolerance of 25/1.001. -/
theorem cond_25 :
    ¬ (|((25 : ℤ) : ℚ) / (1001 / 1000) - 25| / 25 < 1 / 100000) := by
  have habs : |((25 : ℤ) : ℚ) / (1001 / 1000) - 25| = 25 / 1001 := by
    rw [abs_of_neg] <;> norm_num
  rw [habs]
  norm_num

/-- Helper: 25 is outside the NTSC snapping tolerance. -/
theorem not_ntscCond_25 : ¬ ntscCond 25 := by
  unfold ntscCond
  rw [ceil_25]
  exact cond_25

/-- Claim C4: a probed rate within relative tolerance 1e-5 of
`ceil(v)/1.001` is snapped to the exact rational `ceil(v)*1000/1001`,
otherwise kept as its exact rational value; in particular 23.976 yields
24000/1001 and 25.0 yields 25/1. -/
theorem c4_framerate_normalization :
    (∀ v : ℚ, 0 < v →
      (ntscCond v → normalize_framerate v = ntscSnap v) ∧
      (¬ ntscCond v → normalize_framerate v = v)) ∧
    normalize_framerate ((23976 : ℚ) / 1000) = (24000 : ℚ) / 1001 ∧
    normalize_framerate (25 : ℚ) = 25 := by
  refine ⟨fun v _hv => ⟨fun hc => ?_, fun hc => ?_⟩, ?_, ?_⟩
  · unfold normalize_framerate ntscSnap
    unfold ntscCond at hc
    rw [if_pos hc]
  · unfold normalize_framerate
    unfold ntscCond at hc
    rw [if_neg hc]
  · unfold normalize_framerate
    rw [ceil_23976, if_pos cond_23976]
    push_cast
    norm_num
  · unfold normalize_framerate
    rw [ceil_25, if_neg cond_25]

/-- Claim C4 witness: the general rule applied at the concrete probed value
25, which is outside the tolerance and is therefore returned exactly. -/
theorem c4_witness :
    (0 : ℚ) < 25 ∧ ¬ ntscCond 25 ∧ normalize_framerate (25 : ℚ) = 25 :=
  ⟨by norm_num, not_ntscCond_25,
    (c4_framerate_normalization.1 25 (by norm_num)).2 not_ntscCond_25⟩

/-- Claim C5: for the codecs with a combined constrained-quality mode the
spec expects quality plus bitrate to yield the `cq` end-usage flag together
with a cq-level flag and a target-bitrate flag.  The vp8 builder does this,
but the vp9 builder reassigns (rather than appends to) its flag list, so its
command keeps only the target-bitrate flag: the end-usage and cq-level flags
are lost (its end-usage block is dead code). -/
theorem c5_vp9_drops_cq_flags :
    (exceptOk (get_encode_vp9_command "video.ivf" (640, 480)
        ((24000 : ℚ) / 1001) (some 5) (some 1000) (some 3) none none 4) =
      true ∧
     hasFlagPre (cmdOf (get_encode_vp9_command "video.ivf" (640, 480)
        ((24000 : ℚ) / 1001) (some 5) (some 1000) (some 3) none none 4))
        ("--target-bitrate=") = true ∧
     hasFlagPre (cmdOf (get_encode_vp9_command "video.ivf" (640, 480)
        ((24000 : ℚ) / 1001) (some 5) (some 1000) (some 3) none none 4))
        ("--end-usage=") = false ∧
     hasFlagPre (cmdOf (get_encode_vp9_command "video.ivf" (640, 480)
        ((24000 : ℚ) / 1001) (some 5) (some 1000) (some 3) none none 4))
        ("--cq-level=") = false) ∧
    (exceptOk (get_encode_vp8_command "video.ivf" (640, 480)
        ((24000 : ℚ) / 1001) (some 5) (some 1000) (some 3) none none 4) =
      true ∧
     ("--end-usage=cq" ∈ cmdOf (get_encode_vp8_command "video.ivf" (640, 480)
        ((24000 : ℚ) / 1001) (some 5) (some 1000) (some 3) none none 4)) ∧
     hasFlagPre (cmdOf (get_encode_vp8_command "video.ivf" (640, 480)
        ((24000 : ℚ) / 1001) (some 5) (some 1000) (some 3) none none 4))
        ("--cq-level=") = true ∧
     ("--target-bitrate=1000" ∈ cmdOf (get_encode_vp8_command "video.ivf"
        (640, 480) ((24000 : ℚ) / 1001) (some 5) (some 1000) (some 3) none
        none 4))) := by
  decide

/-- Claim C7: the spec expects `audioCodec=copy` with a chapter range to
fail before any external process is launched.  On this concrete run
(`in.mkv`, copy audio, start chapter 2) the probe and Matroska identify
processes are launched first, and the run then dies with an
`AssertionError` from the audio-codec dispatch (whose chain omits `copy`,
making the clean range check of lines 702-705 unreachable). -/
theorem c7_copy_with_range_after_probe :
    mainAudioTrace
        ⟨"in.mkv", "out.mkv", none, false, false, none, none, "copy",
          some 2, none, false, false, false, false⟩
        ⟨false, false, 0, false, ""⟩ =
      (["mplayer probe", "mkvmerge identify"],
        Except.error ("AssertionError")) := by
  rfl

/-- Claim C9: the `--container` option's legal values are compared against
dotted strings and can never match, so the output container is determined
solely by the output path's extension, and a path with an unknown extension
is rejected even when `--container` is supplied. -/
theorem c9_container_extension_only :
    (∀ c : String, c ∈ (["mkv", "webm", "mp4"] : List String) →
      ∀ output : String,
        determineContainer (some c) output = determineContainer none output) ∧
    (∀ (c output : String), c ∈ (["mkv", "webm", "mp4"] : List String) →
      outSuffixLower output ∉ ([".mkv", ".webm", ".mp4"] : List String) →
      determineContainer (some c) output =
        Except.error ("Output container type indeterminable!")) := by
  have hnone : ∀ output : String,
      determineContainer none output =
        (if outSuffixLower output ∈ ([".mkv", ".webm", ".mp4"] : List String)
         then
          Except.ok (output,
            String.mk (pyLowerL ((pySplitext output.toList).2.drop 1)))
         else Except.error ("Output container type indeterminable!")) := by
    intro output
    unfold determineContainer outSuffixLower
    rw [if_neg (show ¬ ((none : Option String) = some (".mkv" : String)) from
        by decide),
      if_neg (show ¬ ((none : Option String) = some (".webm" : String)) from
        by decide),
      if_neg (show ¬ ((none : Option String) = some (".mp4" : String)) from
        by decide)]
  have hsome : ∀ c : String, c ∈ (["mkv", "webm", "mp4"] : List String) →
      ∀ output : String,
        determineContainer (some c) output = determineContainer none output := by
    intro c hc output
    fin_cases hc
    · unfold determineContainer
      rw [if_neg (show ¬ (some ("mkv" : String) = some (".mkv" : String)) from
          by decide),
        if_neg (show ¬ (some ("mkv" : String) = some (".webm" : String)) from
          by decide),
        if_neg (show ¬ (some ("mkv" : String) = some (".mp4" : String)) from
          by decide),
        if_neg (show ¬ ((none : Option String) = some (".mkv" : String)) from
          by decide),
        if_neg (show ¬ ((none : Option String) = some (".webm" : String)) from
          by decide),
        if_neg (show ¬ ((none : Option String) = some (".mp4" : String)) from
          by decide)]
    · unfold determineContainer
      rw [if_neg (show ¬ (some ("webm" : String) = some (".mkv" : String)) from
          by decide),
        if_neg (show ¬ (some ("webm" : String) = some (".webm" : String)) from
          by decide),
        if_neg (show ¬ (some ("webm" : String) = some (".mp4" : String)) from
          by decide),
        if_neg (show ¬ ((none : Option String) = some (".mkv" : String)) from
          by decide),
        if_neg (show ¬ ((none : Option String) = some (".webm" : String)) from
          by decide),
        if_neg (show ¬ ((none : Option String) = some (".mp4" : String)) from
          by decide)]
    · unfold determineContainer
      rw [if_neg (show ¬ (some ("mp4" : String) = some (".mkv" : String)) from
          by decide),
        if_neg (show ¬ (some ("mp4" : String) = some (".webm" : String)) from
          by decide),
        if_neg (show ¬ (some ("mp4" : String) = some (".mp4" : String)) from
          by decide),
        if_neg (show ¬ ((none : Option String) = some (".mkv" : String)) from
          by decide),
        if_neg (show ¬ ((none : Option String) = some (".webm" : String)) from
          by decide),
        if_neg (show ¬ ((none : Option String) = some (".mp4" : String)) from
          by decide)]
  refine ⟨hsome, fun c output hc hsuf => ?_⟩
  rw [hsome c hc output, hnone output, if_neg hsuf]

/-- Claim C9 witness: with `--container mkv` and an `.avi` output path the
run is still rejected, and the option is interchangeable with no option. -/
theorem c9_witness :
    ("mkv" : String) ∈ (["mkv", "webm", "mp4"] : List String) ∧
    outSuffixLower "movie.avi" ∉ ([".mkv", ".webm", ".mp4"] : List String) ∧
    determineContainer (some "mkv") "movie.avi" =
      Except.error ("Output container type indeterminable!") ∧
    determineContainer (some "mkv") "movie.avi" =
      determineContainer none "movie.avi" :=
  ⟨by decide, by decide,
    c9_container_extension_only.2 "mkv" "movie.avi" (by decide) (by decide),
    c9_container_extension_only.1 "mkv" (by decide) "movie.avi"⟩

/-- Claim C10: with deinterlacing the rate handed to the encoder builders is
exactly twice the base rate (24000/1001 under inverse telecine, else the
forced rate, else the probed rate); without it, the base rate unchanged. -/
theorem c10_deinterlace_doubles_rate (ivtc : Bool)
    (rate : Option (Int × Int)) (probed : ℚ) :
    mainFinalRate ivtc rate probed true = 2 * specBaseRate ivtc rate probed ∧
    mainFinalRate ivtc rate probed false = specBaseRate ivtc rate probed := by
  constructor <;>
    simp [mainFinalRate, specBaseRate, mul_comm]

/-! ## Digit-string lemmas -/

theorem isDig_digitChar (n : Nat) (h : n < 10) : isDig (digitChar n) = true := by
  interval_cases n <;> decide

theorem digVal_digitChar (n : Nat) (h : n < 10) : digVal (digitChar n) = n := by
  interval_cases n <;> decide

theorem digitChar_not_sign (n : Nat) (h : n < 10) :
    ¬ (digitChar n = '-' ∨ digitChar n = '+') := by
  interval_cases n <;> decide

theorem isDig_ne_nl (c : Char) (h : isDig c = true) : c ≠ '\n' ∧ c ≠ '\r' := by
  constructor <;> intro he <;> subst he <;> exact absurd h (by decide)

theorem natDigitsAux_congr :
    ∀ f1 f2 n, n < f1 → n < f2 → natDigitsAux f1 n = natDigitsAux f2 n := by
  intro f1
  induction f1 with
  | zero => intro f2 n h1; omega
  | succ f ih =>
    intro f2 n h1 h2
    cases f2 with
    | zero => omega
    | succ g =>
      show natDigitsAux (f + 1) n = natDigitsAux (g + 1) n
      simp only [natDigitsAux]
      by_cases hn : n < 10
      · rw [if_pos hn, if_pos hn]
      · rw [if_neg hn, if_neg hn, ih g (n / 10) (by omega) (by omega)]

theorem natDigits_eq (n : Nat) :
    natDigits n =
      if n < 10 then [digitChar n]
      else natDigits (n / 10) ++ [digitChar (n % 10)] := by
  show natDigitsAux (n + 1) n = _
  simp only [natDigitsAux]
  by_cases hn : n < 10
  · rw [if_pos hn, if_pos hn]
  · rw [if_neg hn, if_neg hn,
      natDigitsAux_congr n (n / 10 + 1) (n / 10) (by omega) (by omega)]
    rfl

theorem natDigits_ne_nil (n : Nat) : natDigits n ≠ [] := by
  rw [natDigits_eq]
  by_cases hn : n < 10
  · rw [if_pos hn]; simp
  · rw [if_neg hn]; simp

theorem natDigits_isDig (n : Nat) : ∀ c ∈ natDigits n, isDig c = true := by
  induction n using Nat.strong_induction_on with
  | _ n ih =>
    rw [natDigits_eq]
    by_cases hn : n < 10
    · rw [if_pos hn]
      intro c hc
      rw [List.mem_singleton] at hc
      subst hc
      exact isDig_digitChar n hn
    · rw [if_neg hn]
      intro c hc
      rcases List.mem_append.mp hc with h1 | h2
      · exact ih (n / 10) (Nat.div_lt_self (by omega) (by omega)) c h1
      · rw [List.mem_singleton] at h2
        subst h2
        exact isDig_digitChar (n % 10) (Nat.mod_lt n (by omega))

theorem digitsVal_foldl (a : Nat) (l : List Char) :
    List.foldl (fun a c => 10 * a + digVal c) a l =
      a * 10 ^ l.length + digitsVal l := by
  induction l generalizing a with
  | nil => simp [digitsVal]
  | cons c l ih =>
    show List.foldl _ (10 * a + digVal c) l = _
    rw [ih]
    unfold digitsVal
    show _ = a * 10 ^ (l.length + 1) + List.foldl _ (10 * 0 + digVal c) l
    rw [ih (10 * 0 + digVal c)]
    unfold digitsVal
    ring

theorem digitsVal_append (l1 l2 : List Char) :
    digitsVal (l1 ++ l2) = digitsVal l1 * 10 ^ l2.length + digitsVal l2 := by
  unfold digitsVal
  rw [List.foldl_append]
  exact digitsVal_foldl _ l2

theorem digitsVal_natDigits (n : Nat) : digitsVal (natDigits n) = n := by
  induction n using Nat.strong_induction_on with
  | _ n ih =>
    rw [natDigits_eq]
    by_cases hn : n < 10
    · rw [if_pos hn]
      show 10 * 0 + digVal (digitChar n) = n
      rw [digVal_digitChar n hn]
      omega
    · rw [if_neg hn, digitsVal_append,
        ih (n / 10) (Nat.div_lt_self (by omega) (by omega))]
      show n / 10 * 10 ^ 1 + (10 * 0 + digVal (digitChar (n % 10))) = n
      rw [digVal_digitChar (n % 10) (Nat.mod_lt n (by omega))]
      omega

theorem natDigits_small (n : Nat) (h : n < 10) :
    natDigits n = [digitChar n] := by
  rw [natDigits_eq, if_pos h]

theorem natDigits_two (n : Nat) (h1 : 10 ≤ n) (h2 : n < 100) :
    natDigits n = [digitChar (n / 10), digitChar (n % 10)] := by
  rw [natDigits_eq, if_neg (by omega), natDigits_small (n / 10) (by omega)]
  rfl

theorem natDigits_three (n : Nat) (h1 : 100 ≤ n) (h2 : n < 1000) :
    natDigits n =
      [digitChar (n / 100), digitChar (n / 10 % 10), digitChar (n % 10)] := by
  rw [natDigits_eq, if_neg (by omega),
    natDigits_two (n / 10) (by omega) (by omega), Nat.div_div_eq_div_mul]
  rfl

/-! ## `zfill` lemmas -/

theorem zfillL_cons_eq (c : Char) (r : List Char) (w : Nat) :
    zfillL (c :: r) w =
      if w ≤ r.length + 1 then c :: r
      else if c = '-' ∨ c = '+' then
        c :: (List.replicate (w - (r.length + 1)) '0' ++ r)
      else List.replicate (w - (r.length + 1)) '0' ++ (c :: r) := rfl

theorem zfill2_natDigits (n : Nat) (h : n < 100) :
    zfillL (natDigits n) 2 = [digitChar (n / 10), digitChar (n % 10)] := by
  by_cases h1 : n < 10
  · rw [natDigits_small n h1, zfillL_cons_eq]
    rw [if_neg (by simp), if_neg (digitChar_not_sign n h1)]
    have hd : n / 10 = 0 := by omega
    have hm : n % 10 = n := by omega
    rw [hd, hm]
    rfl
  · rw [natDigits_two n (by omega) h, zfillL_cons_eq]
    rw [if_pos (by simp)]

theorem zfill3_natDigits (n : Nat) (h : n < 1000) :
    zfillL (natDigits n) 3 =
      [digitChar (n / 100), digitChar (n / 10 % 10), digitChar (n % 10)] := by
  by_cases h1 : n < 10
  · rw [natDigits_small n h1, zfillL_cons_eq]
    rw [if_neg (by simp), if_neg (digitChar_not_sign n h1)]
    have hd : n / 100 = 0 := by omega
    have hd2 : n / 10 % 10 = 0 := by omega
    have hm : n % 10 = n := by omega
    rw [hd, hd2, hm]
    rfl
  · by_cases h2 : n < 100
    · rw [natDigits_two n (by omega) h2, zfillL_cons_eq]
      rw [if_neg (by simp), if_neg (digitChar_not_sign (n / 10) (by omega))]
      have hd : n / 100 = 0 := by omega
      have hd2 : n / 10 % 10 = n / 10 := by omega
      rw [hd, hd2]
      rfl
    · rw [natDigits_three n (by omega) h, zfillL_cons_eq]
      rw [if_pos (by simp)]

theorem zfill_natDigits_isDig (n w : Nat) :
    ∀ c ∈ zfillL (natDigits n) w, isDig c = true := by
  rcases hnd : natDigits n with _ | ⟨c0, r⟩
  · exact absurd hnd (natDigits_ne_nil n)
  · have hall : ∀ c ∈ c0 :: r, isDig c = true := by
      rw [← hnd]; exact natDigits_isDig n
    have hc0 : isDig c0 = true := hall c0 (by simp)
    rw [zfillL_cons_eq]
    by_cases hw : w ≤ r.length + 1
    · rw [if_pos hw]
      exact hall
    · rw [if_neg hw, if_neg (by
        intro hsign
        rcases hsign with hs | hs <;> subst hs <;> exact absurd hc0 (by decide))]
      intro c hc
      rcases List.mem_append.mp hc with h1 | h2
      · have := List.eq_of_mem_replicate h1
        subst this
        decide
      · exact hall c h2

theorem digitsVal_replicate_zero (k : Nat) :
    digitsVal (List.replicate k '0') = 0 := by
  induction k with
  | zero => rfl
  | succ k ih =>
    rw [List.replicate_succ]
    unfold digitsVal
    show List.foldl (fun a c => 10 * a + digVal c) (10 * 0 + digVal '0')
      (List.replicate k '0') = 0
    rw [digitsVal_foldl, ih]
    have h0 : digVal '0' = 0 := by decide
    rw [h0]
    simp

theorem digitsVal_zfill_natDigits (n w : Nat) :
    digitsVal (zfillL (natDigits n) w) = n := by
  rcases hnd : natDigits n with _ | ⟨c0, r⟩
  · exact absurd hnd (natDigits_ne_nil n)
  · have hc0 : isDig c0 = true := by
      have hall := natDigits_isDig n
      rw [hnd] at hall
      exact hall c0 (by simp)
    rw [zfillL_cons_eq]
    by_cases hw : w ≤ r.length + 1
    · rw [if_pos hw, ← hnd, digitsVal_natDigits]
    · rw [if_neg hw, if_neg (by
        intro hsign
        rcases hsign with hs | hs <;> subst hs <;> exact absurd hc0 (by decide))]
      rw [digitsVal_append, digitsVal_replicate_zero, ← hnd,
        digitsVal_natDigits]
      omega

theorem zfill2_length (n : Nat) (h : n < 100) :
    (zfillL (natDigits n) 2).length = 2 := by
  rw [zfill2_natDigits n h]
  rfl

theorem zfill2_inj (m n : Nat)
    (h : zfillL (natDigits m) 2 = zfillL (natDigits n) 2) : m = n := by
  have := congrArg digitsVal h
  rwa [digitsVal_zfill_natDigits, digitsVal_zfill_natDigits] at this

/-! ## Parsing lemmas -/

theorem takeDigits_split (d r : List Char) (hd : ∀ c ∈ d, isDig c = true)
    (hr : headNotDig r) : takeDigits (d ++ r) = (d, r) := by
  induction d with
  | nil =>
    show takeDigits r = ([], r)
    cases r with
    | nil => rfl
    | cons c r2 =>
      unfold takeDigits
      rw [if_neg (by
        have := hr c rfl
        simp [this])]
  | cons c d2 ih =>
    show takeDigits (c :: (d2 ++ r)) = (c :: d2, r)
    unfold takeDigits
    rw [if_pos (by simp [hd c (by simp)])]
    rw [ih (fun x hx => hd x (by simp [hx]))]

theorem expectLit_self (a t : List Char) : expectLit a (a ++ t) = some t := by
  induction a with
  | nil => rfl
  | cons c a2 ih =>
    show expectLit (c :: a2) (c :: (a2 ++ t)) = some t
    unfold expectLit
    rw [if_pos rfl]
    exact ih

theorem expectLit_cons (c : Char) (l : List Char) (d : Char) (s : List Char) :
    expectLit (c :: l) (d :: s) = if c = d then expectLit l s else none := rfl

theorem expectLit_prepend (a b s : List Char) :
    expectLit (a ++ b) (a ++ s) = expectLit b s := by
  induction a with
  | nil => rfl
  | cons c a2 ih =>
    show expectLit (c :: (a2 ++ b)) (c :: (a2 ++ s)) = expectLit b s
    rw [expectLit_cons, if_pos rfl]
    exact ih

theorem expectLit_eq_length (a b t : List Char) (h : a.length = b.length) :
    expectLit a (b ++ t) = if a = b then some t else none := by
  induction a generalizing b with
  | nil =>
    cases b with
    | nil => rfl
    | cons d b2 => simp at h
  | cons c a2 ih =>
    cases b with
    | nil => simp at h
    | cons d b2 =>
      show expectLit (c :: a2) (d :: (b2 ++ t)) = _
      rw [expectLit_cons]
      by_cases hcd : c = d
      · subst hcd
        rw [if_pos rfl, ih b2 (by simpa using h)]
        by_cases hab : a2 = b2
        · rw [if_pos hab, if_pos (by rw [hab])]
        · rw [if_neg hab, if_neg (by
            intro he
            injection he with h1 h2
            exact hab h2)]
      · rw [if_neg hcd, if_neg (by
          intro he
          injection he with h1 h2
          exact hcd h1)]

theorem parse2_cons (a b : Char) (r : List Char) :
    parse2 (a :: b :: r) =
      if (isDig a && isDig b) = true then some (10 * digVal a + digVal b, r)
      else none := rfl

theorem parse3_cons (a b c : Char) (r : List Char) :
    parse3 (a :: b :: c :: r) =
      if (isDig a && isDig b && isDig c) = true then
        some (100 * digVal a + 10 * digVal b + digVal c, r)
      else none := rfl

theorem parseChar_cons (c d : Char) (r : List Char) :
    parseChar c (d :: r) = if d = c then some r else none := rfl

theorem parse2_padded (n : Nat) (h : n < 100) (r : List Char) :
    parse2 (zfillL (natDigits n) 2 ++ r) = some (n, r) := by
  rw [zfill2_natDigits n h, List.cons_append, List.cons_append,
    List.nil_append, parse2_cons,
    if_pos (by
      rw [isDig_digitChar (n / 10) (by omega),
        isDig_digitChar (n % 10) (by omega)]
      rfl),
    digVal_digitChar (n / 10) (by omega),
    digVal_digitChar (n % 10) (by omega)]
  have hn : 10 * (n / 10) + n % 10 = n := by omega
  rw [hn]

theorem parse3_padded (n : Nat) (h : n < 1000) (r : List Char) :
    parse3 (zfillL (natDigits n) 3 ++ r) = some (n, r) := by
  rw [zfill3_natDigits n h, List.cons_append, List.cons_append,
    List.cons_append, List.nil_append, parse3_cons,
    if_pos (by
      rw [isDig_digitChar (n / 100) (by omega),
        isDig_digitChar (n / 10 % 10) (by omega),
        isDig_digitChar (n % 10) (by omega)]
      rfl),
    digVal_digitChar (n / 100) (by omega),
    digVal_digitChar (n / 10 % 10) (by omega),
    digVal_digitChar (n % 10) (by omega)]
  have hn : 100 * (n / 100) + 10 * (n / 10 % 10) + n % 10 = n := by omega
  rw [hn]

theorem parseClock_clockL (h m s ms : Nat) (hh : h < 100) (hm : m < 100)
    (hs : s < 100) (hms : ms < 1000) :
    parseClock (clockL h m s ms) = some (h, m, s, ms) := by
  have p3 : parse3 (zfillL (natDigits ms) 3) = some (ms, []) := by
    have h3 := parse3_padded ms hms []
    rwa [List.append_nil] at h3
  unfold clockL parseClock
  rw [parse2_padded h hh]
  simp only [parseChar_cons, parse2_padded m hm, parse2_padded s hs, p3,
    ite_true, if_pos rfl]

theorem zfill_natDigits_ne_nil (n w : Nat) : zfillL (natDigits n) w ≠ [] := by
  rcases hnd : natDigits n with _ | ⟨c0, r⟩
  · exact absurd hnd (natDigits_ne_nil n)
  · rw [zfillL_cons_eq]
    by_cases hw : w ≤ r.length + 1
    · rw [if_pos hw]; simp
    · rw [if_neg hw]
      by_cases hsign : c0 = '-' ∨ c0 = '+'
      · rw [if_pos hsign]; simp
      · rw [if_neg hsign]; simp

theorem head_eq_not_dig (c0 : Char) (hc : isDig c0 = false) :
    ∀ r : List Char, headNotDig (c0 :: r) := by
  intro r c hc2
  have : c0 = c := by injection hc2
  rw [← this]
  exact hc

/-! Line-level parse lemmas: how each of the three regexes behaves on each
of the three well-formed record renderings. -/

theorem nameChapterLit_cons :
    nameChapterLit =
      'N' :: ['A', 'M', 'E', '=', 'C', 'h', 'a', 'p', 't', 'e', 'r', ' '] := rfl

theorem nameEqLit_cons : nameEqLit = 'N' :: ['A', 'M', 'E', '='] := rfl

theorem parseTimeLine_time (i h m s ms : Nat) (hh : h < 100) (hm : m < 100)
    (hs : s < 100) (hms : ms < 1000) :
    parseTimeLine (renderLineL (.time i h m s ms)) = some (i, h, m, s, ms) := by
  have htake := takeDigits_split (zfillL (natDigits i) 2)
    ('=' :: clockL h m s ms) (zfill_natDigits_isDig i 2)
    (head_eq_not_dig '=' (by decide) _)
  simp only [renderLineL, List.append_assoc, parseTimeLine, expectLit_self, htake,
    if_neg (zfill_natDigits_ne_nil i 2), parseChar_cons, ite_true,
    parseClock_clockL h m s ms hh hm hs hms,
    digitsVal_zfill_natDigits]

theorem parseTimeLine_auto (i n : Nat) :
    parseTimeLine (renderLineL (.autoTitle i n)) = none := by
  have htake := takeDigits_split (zfillL (natDigits i) 2)
    (nameChapterLit ++ zfillL (natDigits n) 2) (zfill_natDigits_isDig i 2)
    (head_eq_not_dig 'N' (by decide) _)
  have hpc : parseChar '=' (nameChapterLit ++ zfillL (natDigits n) 2) = none := by
    rw [nameChapterLit_cons, List.cons_append, parseChar_cons,
      if_neg (show ¬ ('N' = '=') from by decide)]
  simp only [renderLineL, List.append_assoc, parseTimeLine, expectLit_self, htake,
    if_neg (zfill_natDigits_ne_nil i 2), hpc]

theorem parseTimeLine_free (i : Nat) (t : List Char) :
    parseTimeLine (renderLineL (.freeTitle i t)) = none := by
  have htake := takeDigits_split (zfillL (natDigits i) 2)
    (nameEqLit ++ t) (zfill_natDigits_isDig i 2)
    (head_eq_not_dig 'N' (by decide) _)
  have hpc : parseChar '=' (nameEqLit ++ t) = none := by
    rw [nameEqLit_cons, List.cons_append, parseChar_cons,
      if_neg (show ¬ ('N' = '=') from by decide)]
  simp only [renderLineL, List.append_assoc, parseTimeLine, expectLit_self, htake,
    if_neg (zfill_natDigits_ne_nil i 2), hpc]

theorem nameChapterLit_eq : nameChapterLit = nameEqLit ++ chapterSpaceLit := rfl

theorem parseTitle1_auto (i n : Nat) :
    parseTitle1 (renderLineL (.autoTitle i n)) = some (i, n) := by
  have htake := takeDigits_split (zfillL (natDigits i) 2)
    (nameChapterLit ++ zfillL (natDigits n) 2) (zfill_natDigits_isDig i 2)
    (head_eq_not_dig 'N' (by decide) _)
  have htake2 : takeDigits (zfillL (natDigits n) 2) =
      (zfillL (natDigits n) 2, []) := by
    have := takeDigits_split (zfillL (natDigits n) 2) []
      (zfill_natDigits_isDig n 2) (by intro c hc; simp at hc)
    rwa [List.append_nil] at this
  simp only [renderLineL, List.append_assoc, parseTitle1, expectLit_self, htake,
    if_neg (zfill_natDigits_ne_nil i 2), expectLit_self, htake2,
    if_neg (show ¬ (zfillL (natDigits n) 2 = [] ∨ ([] : List Char) ≠ []) from by
      simp [zfill_natDigits_ne_nil n 2]),
    digitsVal_zfill_natDigits]


theorem parseTitle1_time (i h m s ms : Nat) :
    parseTitle1 (renderLineL (.time i h m s ms)) = none := by
  have htake := takeDigits_split (zfillL (natDigits i) 2)
    ('=' :: clockL h m s ms) (zfill_natDigits_isDig i 2)
    (head_eq_not_dig '=' (by decide) _)
  have hexpn : expectLit nameChapterLit ('=' :: clockL h m s ms) = none := by
    rw [nameChapterLit_cons, expectLit_cons,
      if_neg (show ¬ ('N' = '=') from by decide)]
  simp only [renderLineL, List.append_assoc, parseTitle1, expectLit_self, htake,
    if_neg (zfill_natDigits_ne_nil i 2), hexpn]

theorem parseTitle1_free (i : Nat) (t : List Char)
    (hfree : isAutoLabelB t = false) :
    parseTitle1 (renderLineL (.freeTitle i t)) = none := by
  have htake := takeDigits_split (zfillL (natDigits i) 2)
    (nameEqLit ++ t) (zfill_natDigits_isDig i 2)
    (head_eq_not_dig 'N' (by decide) _)
  have hexp2 : expectLit nameChapterLit (nameEqLit ++ t) =
      expectLit chapterSpaceLit t := by
    rw [nameChapterLit_eq, expectLit_prepend]
  simp only [renderLineL, List.append_assoc, parseTitle1, expectLit_self, htake,
    if_neg (zfill_natDigits_ne_nil i 2), hexp2]
  unfold isAutoLabelB at hfree
  rcases hexp : expectLit chapterSpaceLit t with _ | r
  · simp only [hexp]
  · rw [hexp] at hfree
    simp only [] at hfree
    simp only [hexp]
    rcases htd : takeDigits r with ⟨q1, q2⟩
    rw [htd] at hfree
    simp only [htd]
    have hq : q1 = [] ∨ q2 ≠ [] := by
      by_contra hcon
      push_neg at hcon
      simp [hcon.1, hcon.2] at hfree
    show (if q1 = [] ∨ q2 ≠ [] then none
      else some (digitsVal (zfillL (natDigits i) 2), digitsVal q1)) = none
    rw [if_pos hq]

theorem parseTitle2_free (i : Nat) (t : List Char) :
    parseTitle2 (renderLineL (.freeTitle i t)) = some (i, t) := by
  have htake := takeDigits_split (zfillL (natDigits i) 2)
    (nameEqLit ++ t) (zfill_natDigits_isDig i 2)
    (head_eq_not_dig 'N' (by decide) _)
  simp only [renderLineL, List.append_assoc, parseTitle2, expectLit_self, htake,
    if_neg (zfill_natDigits_ne_nil i 2), expectLit_self,
    digitsVal_zfill_natDigits]

theorem parseTitle2_auto (i n : Nat) :
    parseTitle2 (renderLineL (.autoTitle i n)) =
      some (i, chapterSpaceLit ++ zfillL (natDigits n) 2) := by
  have htake := takeDigits_split (zfillL (natDigits i) 2)
    (nameChapterLit ++ zfillL (natDigits n) 2) (zfill_natDigits_isDig i 2)
    (head_eq_not_dig 'N' (by decide) _)
  have hexp2 : expectLit nameEqLit (nameChapterLit ++ zfillL (natDigits n) 2) =
      some (chapterSpaceLit ++ zfillL (natDigits n) 2) := by
    rw [nameChapterLit_eq, List.append_assoc, expectLit_self]
  simp only [renderLineL, List.append_assoc, parseTitle2, expectLit_self, htake,
    if_neg (zfill_natDigits_ne_nil i 2), hexp2,
    digitsVal_zfill_natDigits]

theorem parseTitle2_time (i h m s ms : Nat) :
    parseTitle2 (renderLineL (.time i h m s ms)) = none := by
  have htake := takeDigits_split (zfillL (natDigits i) 2)
    ('=' :: clockL h m s ms) (zfill_natDigits_isDig i 2)
    (head_eq_not_dig '=' (by decide) _)
  have hexpn : expectLit nameEqLit ('=' :: clockL h m s ms) = none := by
    rw [nameEqLit_cons, expectLit_cons,
      if_neg (show ¬ ('N' = '=') from by decide)]
  simp only [renderLineL, List.append_assoc, parseTitle2, expectLit_self, htake,
    if_neg (zfill_natDigits_ne_nil i 2), hexpn]

/-! ## Start-chapter search lemmas -/

theorem parseStartLine_time (s i h m sec ms : Nat) (hs : s < 100)
    (hi : i < 100) (hh : h < 100) (hm : m < 100) (hsec : sec < 100)
    (hms : ms < 1000) :
    parseStartLine s (renderLineL (.time i h m sec ms)) =
      if i = s then some (usOf h m sec ms) else none := by
  unfold parseStartLine
  simp only [renderLineL, List.append_assoc, expectLit_prepend]
  rw [expectLit_eq_length _ _ _ (by
    rw [zfill2_length s hs, zfill2_length i hi])]
  by_cases hie : i = s
  · subst hie
    rw [if_pos rfl, if_pos rfl]
    simp only [parseChar_cons, ite_true, parseClock_clockL h m sec ms hh hm hsec hms]
  · rw [if_neg (by
      intro he
      exact hie (zfill2_inj i s he.symm)), if_neg hie]

theorem parseStartLine_auto (s i n : Nat) (hs : s < 100) (hi : i < 100) :
    parseStartLine s (renderLineL (.autoTitle i n)) = none := by
  unfold parseStartLine
  simp only [renderLineL, List.append_assoc, expectLit_prepend]
  rw [expectLit_eq_length _ _ _ (by
    rw [zfill2_length s hs, zfill2_length i hi])]
  by_cases hie : zfillL (natDigits s) 2 = zfillL (natDigits i) 2
  · rw [if_pos hie]
    simp only [nameChapterLit_cons, List.cons_append, parseChar_cons,
      if_neg (show ¬ ('N' = '=') from by decide)]
  · rw [if_neg hie]

theorem parseStartLine_free (s i : Nat) (t : List Char) (hs : s < 100)
    (hi : i < 100) :
    parseStartLine s (renderLineL (.freeTitle i t)) = none := by
  unfold parseStartLine
  simp only [renderLineL, List.append_assoc, expectLit_prepend]
  rw [expectLit_eq_length _ _ _ (by
    rw [zfill2_length s hs, zfill2_length i hi])]
  by_cases hie : zfillL (natDigits s) 2 = zfillL (natDigits i) 2
  · rw [if_pos hie]
    simp only [nameEqLit_cons, List.cons_append, parseChar_cons,
      if_neg (show ¬ ('N' = '=') from by decide)]
  · rw [if_neg hie]

theorem findStart_spec (s : Nat) (hs : s < 100) (recs : List ChapRec)
    (hidx : ∀ r ∈ recs, r.idxOf < 100)
    (hwf : ∀ r ∈ recs, recWFB r = true) :
    findStart s (recs.map renderLineL) = specStartTime s recs := by
  induction recs with
  | nil => rfl
  | cons r rest ih =>
    have ih2 := ih (fun x hx => hidx x (by simp [hx]))
      (fun x hx => hwf x (by simp [hx]))
    cases r with
    | time i h m sec ms =>
      have hb : recWFB (.time i h m sec ms) = true := hwf _ (by simp)
      simp only [recWFB, Bool.and_eq_true, decide_eq_true_eq] at hb
      have hi : (ChapRec.time i h m sec ms).idxOf < 100 := hidx _ (by simp)
      simp only [ChapRec.idxOf] at hi
      show findStart s (renderLineL (.time i h m sec ms) :: rest.map renderLineL)
        = specStartTime s (.time i h m sec ms :: rest)
      unfold findStart
      rw [parseStartLine_time s i h m sec ms hs hi hb.1.1.1 hb.1.1.2 hb.1.2
        hb.2]
      by_cases hie : i = s
      · rw [if_pos hie]
        unfold specStartTime
        rw [if_pos hie]
      · rw [if_neg hie]
        unfold specStartTime
        rw [if_neg hie]
        exact ih2
    | autoTitle i n =>
      have hi : (ChapRec.autoTitle i n).idxOf < 100 := hidx _ (by simp)
      simp only [ChapRec.idxOf] at hi
      show findStart s (renderLineL (.autoTitle i n) :: rest.map renderLineL)
        = specStartTime s (.autoTitle i n :: rest)
      unfold findStart
      rw [parseStartLine_auto s i n hs hi]
      exact ih2
    | freeTitle i t =>
      have hi : (ChapRec.freeTitle i t).idxOf < 100 := hidx _ (by simp)
      simp only [ChapRec.idxOf] at hi
      show findStart s (renderLineL (.freeTitle i t) :: rest.map renderLineL)
        = specStartTime s (.freeTitle i t :: rest)
      unfold findStart
      rw [parseStartLine_free s i t hs hi]
      exact ih2

/-! ## Splitting the rendered text back into lines -/

theorem pySplitlinesAux_generic (acc : List Char) (c : Char) (r : List Char)
    (h1 : c ≠ '\n') (h2 : c ≠ '\r') :
    pySplitlinesAux acc (c :: r) = pySplitlinesAux (c :: acc) r := by
  conv_lhs => rw [pySplitlinesAux.eq_def]
  split
  · rename_i heq
    simp at heq
  · rename_i heq
    injection heq with ha hb
    exact absurd ha h1
  · rename_i heq
    injection heq with ha hb
    exact absurd ha h2
  · rename_i heq
    injection heq with ha hb
    exact absurd ha h2
  · rename_i heq
    injection heq with ha hb
    subst ha
    subst hb
    rfl

theorem pySplitlinesAux_nl (acc rest : List Char) :
    pySplitlinesAux acc ('\n' :: rest) = acc.reverse :: pySplitlinesAux [] rest := rfl

theorem pySplitlinesAux_line (l : List Char)
    (hclean : ∀ c ∈ l, c ≠ '\n' ∧ c ≠ '\r') :
    ∀ acc rest,
      pySplitlinesAux acc (l ++ '\n' :: rest) =
        (acc.reverse ++ l) :: pySplitlinesAux [] rest := by
  induction l with
  | nil =>
    intro acc rest
    show pySplitlinesAux acc ('\n' :: rest) = _
    rw [pySplitlinesAux_nl, List.append_nil]
  | cons c l2 ih =>
    intro acc rest
    have hc := hclean c (by simp)
    show pySplitlinesAux acc (c :: (l2 ++ '\n' :: rest)) = _
    rw [pySplitlinesAux_generic acc c _ hc.1 hc.2,
      ih (fun x hx => hclean x (by simp [hx]))]
    simp

theorem chapterLit_clean : ∀ c ∈ chapterLit, c ≠ '\n' ∧ c ≠ '\r' := by decide

theorem nameChapterLit_clean : ∀ c ∈ nameChapterLit, c ≠ '\n' ∧ c ≠ '\r' := by
  decide

theorem nameEqLit_clean : ∀ c ∈ nameEqLit, c ≠ '\n' ∧ c ≠ '\r' := by decide

theorem zfill_clean (n w : Nat) :
    ∀ c ∈ zfillL (natDigits n) w, c ≠ '\n' ∧ c ≠ '\r' :=
  fun c hc => isDig_ne_nl c (zfill_natDigits_isDig n w c hc)

theorem clockL_clean (h m s ms : Nat) :
    ∀ c ∈ clockL h m s ms, c ≠ '\n' ∧ c ≠ '\r' := by
  intro c hc
  unfold clockL at hc
  simp only [List.mem_append, List.mem_cons] at hc
  rcases hc with h1 | h2 | h3 | h4 | h5 | h6 | h7
  · exact zfill_clean _ _ c h1
  · subst h2; exact ⟨by decide, by decide⟩
  · exact zfill_clean _ _ c h3
  · subst h4; exact ⟨by decide, by decide⟩
  · exact zfill_clean _ _ c h5
  · subst h6; exact ⟨by decide, by decide⟩
  · exact zfill_clean _ _ c h7

theorem renderLineL_clean (r : ChapRec) (hwf : recWFB r = true) :
    ∀ c ∈ renderLineL r, c ≠ '\n' ∧ c ≠ '\r' := by
  cases r with
  | time i h m s ms =>
    intro c hc
    simp only [renderLineL, List.append_assoc, List.mem_append,
      List.mem_cons] at hc
    rcases hc with h1 | h2 | h3 | h4
    · exact chapterLit_clean c h1
    · exact zfill_clean _ _ c h2
    · subst h3; exact ⟨by decide, by decide⟩
    · exact clockL_clean _ _ _ _ c h4
  | autoTitle i n =>
    intro c hc
    simp only [renderLineL, List.append_assoc, List.mem_append] at hc
    rcases hc with h1 | h2 | h3 | h4
    · exact chapterLit_clean c h1
    · exact zfill_clean _ _ c h2
    · exact nameChapterLit_clean c h3
    · exact zfill_clean _ _ c h4
  | freeTitle i t =>
    have hall : ∀ c ∈ t, c ≠ '\n' ∧ c ≠ '\r' := by
      have hb : recWFB (.freeTitle i t) = true := hwf
      simp only [recWFB, Bool.and_eq_true, List.all_eq_true] at hb
      intro c hc
      have := hb.1 c hc
      simp only [Bool.and_eq_true, decide_eq_true_eq] at this
      exact this
    intro c hc
    simp only [renderLineL, List.append_assoc, List.mem_append] at hc
    rcases hc with h1 | h2 | h3 | h4
    · exact chapterLit_clean c h1
    · exact zfill_clean _ _ c h2
    · exact nameEqLit_clean c h3
    · exact hall c h4

theorem pySplitlines_render (recs : List ChapRec)
    (hwf : ∀ r ∈ recs, recWFB r = true) :
    pySplitlinesAux [] (renderRecsL recs) = recs.map renderLineL := by
  induction recs with
  | nil => rfl
  | cons r rest ih =>
    have hr : renderRecsL (r :: rest) =
        renderLineL r ++ '\n' :: renderRecsL rest := by
      unfold renderRecsL
      simp [List.append_assoc]
    rw [hr, pySplitlinesAux_line (renderLineL r)
      (renderLineL_clean r (hwf r (by simp))) [] (renderRecsL rest)]
    rw [ih (fun x hx => hwf x (by simp [hx]))]
    simp

/-! ## Per-line processing agrees with the spec's record rewriting -/

theorem tdSecs_natCast (u : Nat) : tdSecs (u : Int) = u / 1000000 % 86400 := rfl

theorem tdMicros_natCast (u : Nat) : tdMicros (u : Int) = u % 1000000 := rfl

theorem emitTimeL_spec (i : Int) (u : Nat) (hu : u < 86400000000) :
    emitTimeL i (u : Int) =
      chapterLit ++ zfillL (intStrL i) 2 ++ '=' ::
        (specClockOfUs u ++ ['\n']) := by
  have hsec : tdSecs (u : Int) = u / 1000000 := by
    rw [tdSecs_natCast]
    omega
  have hms : tdMicros (u : Int) = u % 1000000 := tdMicros_natCast u
  unfold emitTimeL specClockOfUs
  rw [hsec, hms]
  have e1 : u / 1000000 / 3600 = u / 3600000000 := by
    rw [Nat.div_div_eq_div_mul]
  have e2 : u / 1000000 / 60 % 60 = u % 3600000000 / 60000000 := by
    rw [Nat.div_div_eq_div_mul]
    rw [show (3600000000 : Nat) = 60000000 * 60 from rfl,
      Nat.mod_mul_right_div_self]
  have e3 : u / 1000000 % 60 = u % 60000000 / 1000000 := by
    rw [show (60000000 : Nat) = 1000000 * 60 from rfl,
      Nat.mod_mul_right_div_self]
  rw [e1, e2, e3]
  simp [List.append_assoc]

theorem processLine_spec (cs ce : Option Nat) (offI : Int) (offT : Nat)
    (r : ChapRec) (hwf : recWFB r = true)
    (ht : timeOKB cs ce offT r = true) :
    processLine cs ce offI (offT : Int) (renderLineL r) =
      specEmit cs ce offI offT r := by
  cases r with
  | time i h m s ms =>
    have hb : recWFB (.time i h m s ms) = true := hwf
    simp only [recWFB, Bool.and_eq_true, decide_eq_true_eq] at hb
    unfold processLine
    rw [parseTimeLine_time i h m s ms hb.1.1.1 hb.1.1.2 hb.1.2 hb.2]
    simp only []
    by_cases hr : inRangeB cs ce i = true
    · rw [if_pos hr]
      unfold specEmit
      simp only []
      rw [if_pos hr]
      have hok : offT ≤ usOf h m s ms ∧
          usOf h m s ms - offT < 86400000000 := by
        simp only [timeOKB, hr, Bool.not_true, Bool.false_or,
          Bool.and_eq_true, decide_eq_true_eq] at ht
        exact ht
      have hcast : (usOf h m s ms : Int) - (offT : Int) =
          ((usOf h m s ms - offT : Nat) : Int) := by
        omega
      rw [hcast, emitTimeL_spec _ _ hok.2]
    · rw [if_neg hr]
      unfold titleSteps
      rw [parseTitle1_time i h m s ms]
      simp only []
      unfold title2Step
      rw [parseTitle2_time i h m s ms]
      unfold specEmit
      simp only []
      rw [if_neg hr]
  | autoTitle i n =>
    unfold processLine
    rw [parseTimeLine_auto i n]
    simp only []
    unfold titleSteps
    rw [parseTitle1_auto i n]
    simp only []
    by_cases hr : inRangeB cs ce i = true
    · rw [if_pos hr]
      unfold specEmit
      simp only []
      rw [if_pos hr]
    · rw [if_neg hr]
      unfold title2Step
      rw [parseTitle2_auto i n]
      simp only []
      rw [if_neg hr]
      unfold specEmit
      simp only []
      rw [if_neg hr]
  | freeTitle i t =>
    have hfree : isAutoLabelB t = false := by
      have hb : recWFB (.freeTitle i t) = true := hwf
      simp only [recWFB, Bool.and_eq_true, Bool.not_eq_true'] at hb
      exact hb.2
    unfold processLine
    rw [parseTimeLine_free i t]
    simp only []
    unfold titleSteps
    rw [parseTitle1_free i t hfree]
    simp only []
    unfold title2Step
    rw [parseTitle2_free i t]
    simp only []
    by_cases hr : inRangeB cs ce i = true
    · rw [if_pos hr]
      unfold specEmit
      simp only []
      rw [if_pos hr]
    · rw [if_neg hr]
      unfold specEmit
      simp only []
      rw [if_neg hr]

theorem extractBody_flatten (cs ce : Option Nat) (oI oT : Int)
    (lines : List (List Char)) :
    extractBody cs ce oI oT lines =
      (lines.map (processLine cs ce oI oT)).flatten := by
  unfold extractBody
  have hgen : ∀ (L : List (List Char)) (a : List Char),
      List.foldl (fun acc l => acc ++ processLine cs ce oI oT l) a L =
        a ++ (L.map (processLine cs ce oI oT)).flatten := by
    intro L
    induction L with
    | nil => intro a; simp
    | cons x xs ih =>
      intro a
      show List.foldl _ (a ++ processLine cs ce oI oT x) xs = _
      rw [ih]
      simp [List.append_assoc]
  simpa using hgen lines []

/-! ## The slicer agrees with the spec on every well-formed chapter text -/

theorem extract_chapters_spec (cs ce : Option Nat) (recs : List ChapRec)
    (offT : Nat)
    (hwf : ∀ r ∈ recs, recWFB r = true)
    (hidx : ∀ r ∈ recs, r.idxOf < 100)
    (hoff : match cs with
      | some s => s < 100 ∧ specStartTime s recs = some offT
      | none => offT = 0)
    (ht : ∀ r ∈ recs, timeOKB cs ce offT r = true) :
    extract_chapters cs ce (renderRecs recs) =
      Except.ok (specSliceText cs ce (specOffI cs) offT recs) := by
  have hlines : pySplitlines (renderRecs recs) = recs.map renderLineL := by
    unfold pySplitlines renderRecs
    exact pySplitlines_render recs hwf
  have hmap : extractBody cs ce (specOffI cs) (offT : Int)
      (recs.map renderLineL) =
        (recs.map (specEmit cs ce (specOffI cs) offT)).flatten := by
    rw [extractBody_flatten, List.map_map]
    congr 1
    apply List.map_congr_left
    intro r hr
    exact processLine_spec cs ce (specOffI cs) offT r (hwf r hr) (ht r hr)
  unfold extract_chapters
  rw [hlines]
  cases cs with
  | some s =>
    obtain ⟨hs, hfind⟩ := hoff
    simp only []
    rw [findStart_spec s hs recs hidx hwf, hfind]
    simp only []
    unfold specSliceText
    show Except.ok (String.mk (extractBody (some s) ce (specOffI (some s))
      ((offT : Nat) : Int) (recs.map renderLineL))) = _
    rw [hmap]
  | none =>
    simp only []
    unfold specSliceText
    subst hoff
    show Except.ok (String.mk (extractBody none ce (specOffI none)
      ((0 : Nat) : Int) (recs.map renderLineL))) = _
    rw [hmap]

/-! ## Identity of the no-range slice -/

theorem timeOKB_of_norm (r : ChapRec) (hnorm : recNormB r = true) :
    timeOKB none none 0 r = true := by
  cases r with
  | time i h m s ms =>
    simp only [recNormB, Bool.and_eq_true, decide_eq_true_eq] at hnorm
    have hlt : usOf h m s ms < 86400000000 := by
      unfold usOf
      omega
    simp [timeOKB, inRangeB, hlt]
  | autoTitle i n => rfl
  | freeTitle i t => rfl

theorem intStrL_natCast (n : Nat) : intStrL ((n : Nat) : Int) = natDigits n := by
  unfold intStrL
  rw [if_neg (by omega), Int.natAbs_ofNat]

theorem specClockOfUs_usOf (h m s ms : Nat) (hh : h < 24) (hm : m < 60)
    (hs : s < 60) (hms : ms < 1000) :
    specClockOfUs (usOf h m s ms) = clockL h m s ms := by
  have e1 : usOf h m s ms / 3600000000 = h := by
    unfold usOf; omega
  have e2 : usOf h m s ms % 3600000000 / 60000000 = m := by
    unfold usOf; omega
  have e3 : usOf h m s ms % 60000000 / 1000000 = s := by
    unfold usOf; omega
  have e4 : usOf h m s ms % 1000000 / 1000 = ms := by
    unfold usOf; omega
  unfold specClockOfUs clockL
  rw [e1, e2, e3, e4]

theorem specEmit_id (r : ChapRec) (hwf : recWFB r = true)
    (hnorm : recNormB r = true) :
    specEmit none none 0 0 r = renderLineL r ++ ['\n'] := by
  cases r with
  | time i h m s ms =>
    simp only [recNormB, Bool.and_eq_true, decide_eq_true_eq] at hnorm
    unfold specEmit
    simp only []
    rw [if_pos (show inRangeB none none i = true from rfl)]
    have hi : ((i : Int) - 0) = ((i : Nat) : Int) := by ring
    rw [hi, intStrL_natCast, Nat.sub_zero,
      specClockOfUs_usOf h m s ms hnorm.1.1.1 hnorm.1.1.2 hnorm.1.2 hnorm.2]
    unfold renderLineL
    simp [List.append_assoc]
  | autoTitle i n =>
    unfold specEmit
    simp only []
    rw [if_pos (show inRangeB none none i = true from rfl)]
    have hi : ((i : Int) - 0) = ((i : Nat) : Int) := by ring
    have hn : ((n : Int) - 0) = ((n : Nat) : Int) := by ring
    unfold emitT1L
    rw [hi, hn, intStrL_natCast, intStrL_natCast]
    unfold renderLineL
    simp [List.append_assoc]
  | freeTitle i t =>
    unfold specEmit
    simp only []
    rw [if_pos (show inRangeB none none i = true from rfl)]
    have hi : ((i : Int) - 0) = ((i : Nat) : Int) := by ring
    unfold emitT2L
    rw [hi, intStrL_natCast]
    unfold renderLineL
    simp [List.append_assoc]

theorem specSliceText_id (recs : List ChapRec)
    (hwf : ∀ r ∈ recs, recWFB r = true)
    (hnorm : ∀ r ∈ recs, recNormB r = true) :
    specSliceText none none (specOffI none) 0 recs = renderRecs recs := by
  unfold specSliceText renderRecs renderRecsL
  congr 1
  congr 1
  apply List.map_congr_left
  intro r hr
  show specEmit none none (specOffI none) 0 r = renderLineL r ++ ['\n']
  exact specEmit_id r (hwf r hr) (hnorm r hr)

/-! ## Claims C3, C6, C8 -/

/-- Claim C3: for every well-formed chapter text and requested range, the
slicer emits exactly the records whose index lies in the range, subtracting
`startIndex - 1` (0 when the start is unset) from every index-bearing field
and the start entry's timestamp (zero when unset) from every timestamp,
rendered back in the fixed text format. -/
theorem c3_chapter_slicing (cs ce : Option Nat) (recs : List ChapRec)
    (offT : Nat)
    (hwf : ∀ r ∈ recs, recWFB r = true)
    (hidx : ∀ r ∈ recs, r.idxOf < 100)
    (hoff : match cs with
      | some s => s < 100 ∧ specStartTime s recs = some offT
      | none => offT = 0)
    (ht : ∀ r ∈ recs, timeOKB cs ce offT r = true) :
    extract_chapters cs ce (renderRecs recs) =
      Except.ok (specSliceText cs ce (specOffI cs) offT recs) :=
  extract_chapters_spec cs ce recs offT hwf hidx hoff ht

/-- Claim C3 witness: slicing `[3,5]` of a six-chapter input (chapter 3 at
00:01:00.500) emits exactly chapters 3-5 renumbered 1-3, rebased to chapter
3's timestamp; the first retained timestamp is zero. -/
theorem c3_witness :
    (∀ r ∈ ([ChapRec.time 1 0 0 0 0, ChapRec.autoTitle 1 1,
        ChapRec.time 2 0 0 10 0, ChapRec.autoTitle 2 2,
        ChapRec.time 3 0 1 0 500, ChapRec.autoTitle 3 3,
        ChapRec.time 4 0 2 0 0, ChapRec.autoTitle 4 4,
        ChapRec.time 5 0 3 30 250, ChapRec.autoTitle 5 5,
        ChapRec.time 6 0 4 0 0, ChapRec.autoTitle 6 6] : List ChapRec),
      recWFB r = true) ∧
    extract_chapters (some 3) (some 5)
        (renderRecs [ChapRec.time 1 0 0 0 0, ChapRec.autoTitle 1 1,
          ChapRec.time 2 0 0 10 0, ChapRec.autoTitle 2 2,
          ChapRec.time 3 0 1 0 500, ChapRec.autoTitle 3 3,
          ChapRec.time 4 0 2 0 0, ChapRec.autoTitle 4 4,
          ChapRec.time 5 0 3 30 250, ChapRec.autoTitle 5 5,
          ChapRec.time 6 0 4 0 0, ChapRec.autoTitle 6 6]) =
      Except.ok (specSliceText (some 3) (some 5) (specOffI (some 3)) 60500000
        [ChapRec.time 1 0 0 0 0, ChapRec.autoTitle 1 1,
          ChapRec.time 2 0 0 10 0, ChapRec.autoTitle 2 2,
          ChapRec.time 3 0 1 0 500, ChapRec.autoTitle 3 3,
          ChapRec.time 4 0 2 0 0, ChapRec.autoTitle 4 4,
          ChapRec.time 5 0 3 30 250, ChapRec.autoTitle 5 5,
          ChapRec.time 6 0 4 0 0, ChapRec.autoTitle 6 6]) :=
  ⟨by decide,
    c3_chapter_slicing (some 3) (some 5) _ 60500000 (by decide) (by decide)
      (by decide) (by decide)⟩

/-- Claim C6, counterexample: the claim says slicing with no range is the
bit-exact identity on every well-formed chapter text, but an auto-generated
title whose number is not two-digit zero-padded is renumbered through
`zfill(2)`: `Chapter 1` comes back as `Chapter 01`. -/
theorem c6_counterexample :
    extract_chapters none none
        ("CHAPTER01=00:00:00.000\nCHAPTER01NAME=Chapter 1\n") ≠
      Except.ok ("CHAPTER01=00:00:00.000\nCHAPTER01NAME=Chapter 1\n") := by
  have hval : extract_chapters none none
      ("CHAPTER01=00:00:00.000\nCHAPTER01NAME=Chapter 1\n") =
        Except.ok ("CHAPTER01=00:00:00.000\nCHAPTER01NAME=Chapter 01\n") := by
    rfl
  rw [hval]
  intro h
  injection h with h2
  exact absurd h2 (by decide)

/-- Claim C6 as amended: slicing with no range reproduces the input text
bit-exactly provided the text is well-formed with normalised clock fields
(`HH<24`, `MM,SS<60`), two-digit indices, and every auto-generated
`Chapter N` label already written with the same two-digit zero padding the
rewriter applies (a free-form title must not look like such a label). -/
theorem c6_noslice_identity (recs : List ChapRec)
    (hwf : ∀ r ∈ recs, recWFB r = true)
    (hidx : ∀ r ∈ recs, r.idxOf < 100)
    (hnorm : ∀ r ∈ recs, recNormB r = true) :
    extract_chapters none none (renderRecs recs) =
      Except.ok (renderRecs recs) := by
  rw [extract_chapters_spec none none recs 0 hwf hidx rfl
    (fun r hr => timeOKB_of_norm r (hnorm r hr))]
  rw [specSliceText_id recs hwf hnorm]

/-- Claim C6 witness: the identity round-trip applied to a concrete
two-chapter text with a canonical auto-generated title. -/
theorem c6_witness :
    (∀ r ∈ ([ChapRec.time 1 0 0 0 0, ChapRec.autoTitle 1 1,
        ChapRec.time 2 1 2 3 45, ChapRec.autoTitle 2 2] : List ChapRec),
      recWFB r = true ∧ recNormB r = true) ∧
    extract_chapters none none
        (renderRecs [ChapRec.time 1 0 0 0 0, ChapRec.autoTitle 1 1,
          ChapRec.time 2 1 2 3 45, ChapRec.autoTitle 2 2]) =
      Except.ok (renderRecs [ChapRec.time 1 0 0 0 0, ChapRec.autoTitle 1 1,
        ChapRec.time 2 1 2 3 45, ChapRec.autoTitle 2 2]) :=
  ⟨by decide,
    c6_noslice_identity _ (by decide) (by decide) (by decide)⟩

/-- Claim C8: the decode filter chain starts with the pixel-format stage and
appends the requested stages in the fixed order format, telecine/deinterlace,
crop, scale, post-process, denoise, duplication, with frame duplication
always last; under inverse telecine the crop folds into the telecine filter
and the output rate is forced to 24000/1001, overriding a forced rate, while
without inverse telecine a forced rate is carried through unchanged. -/
theorem c8_decode_filter_chain (denoise pp : Bool) (scale : Option (Int × Int))
    (crop : Option (Int × Int × Int × Int)) (deint ivtc : Bool)
    (force_rate : Option (Int × Int)) :
    decodeFilters denoise pp scale crop deint ivtc =
      specFilterChain denoise pp scale crop deint ivtc ∧
    decodeOfps ivtc force_rate = specOfps ivtc force_rate := by
  constructor
  · cases ivtc <;> cases crop <;> cases deint <;> cases scale <;> cases pp <;>
      cases denoise <;>
      simp [decodeFilters, specFilterChain, specStageIvtc, specStageDeint,
        specStageCrop, specStageScale, specStagePp, specStageDenoise,
        string_append_empty, string_empty_append, ← string_append_assoc]
  · rfl
